import Mathlib

/-! The circuit breaker of devfeel/hystrix (`hystrix.go`).

A shallow embedding of `hystrix.go` and the properties of its breaker.

Modelling conventions.

* A `time.Time` is the reading of the process clock in nanoseconds, counted from
  1970-01-01 00:00 of the process's zone (taken as a fixed-offset zone); a
  `time.Duration` is a signed 64-bit number of nanoseconds.
* Every operation receives the clock reading `now`; the successive `time.Now()`
  calls made inside one operation read that same instant. Operations of different
  goroutines are taken one after the other, each running to its end.
* The functions of Go's `time` package that the code calls are given for the one
  layout the code uses, `minuteTimeLayout`.
* The breaker `h` lives in a `World` together with the counter objects it refers to
  and the trace of what it did to its collaborators (predicates consulted,
  callbacks invoked, timers and goroutines started).
* Caller-supplied predicates and callbacks are collaborators outside the
  repository: a predicate answers a boolean that depends on the time of the call,
  a callback is recorded in the trace, and neither writes to the breaker.
-/

namespace Hystrix

/-! ## The `time` package -/

/-- Clock reading in nanoseconds (Go `time.Time`). -/
abbrev Time := Int

/-- Signed nanosecond count (Go `time.Duration`, an `int64`). -/
abbrev Duration := Int

/-- Go `time.Second`. -/
def Second : Duration := 1000000000

/-- Go `time.Minute`. -/
def Minute : Duration := 60 * Second

/-- Largest `time.Duration`. -/
def maxDuration : Duration := 9223372036854775807

/-- Smallest `time.Duration`. -/
def minDuration : Duration := -9223372036854775808

/-- Two's complement wrap-around of 64-bit signed arithmetic. -/
def wrap64 (x : Int) : Int := (x + 9223372036854775808) % 18446744073709551616 - 9223372036854775808

/-- The Go expression `time.Duration(n) * time.Second` for an `int` value `n`. -/
def secondsDuration (n : Int) : Duration := wrap64 (wrap64 n * Second)

/-- Go `t.Sub(u)`: the difference, saturated to the range of `time.Duration`. -/
def timeSub (t u : Time) : Duration :=
  if t - u > maxDuration then maxDuration
  else if t - u < minDuration then minDuration
  else t - u

/-- Go `t.Add(d)`. -/
def timeAdd (t : Time) (d : Duration) : Time := t + d

/-- Go `d.Seconds()`, in units of `1e-9`: the value `float64(sec) + float64(nsec)/1e9`
times `10^9`, with `sec := d / Second` and `nsec := d % Second` truncated toward
zero as Go's `/` and `%` are. Go computes the sum in `float64`; it is kept exact
here. The comparison with `300` made by `defaultCheckAlive` is the same in both:
the whole part is below `2^53` and exact, the fractional part is below one in
absolute value and keeps its sign, and a sum that differs from `300` does so by at
least `1e-9`, far more than the spacing of `float64` values around `300`. -/
def durationSeconds (d : Duration) : Int :=
  Int.tdiv d Second * 1000000000 + Int.tmod d Second

/-- Go `year%4 == 0 && (year%100 != 0 || year%400 == 0)`. -/
def isLeap (year : Int) : Bool :=
  year % 4 == 0 && (year % 100 != 0 || year % 400 == 0)

/-- Go `daysIn(month, year)`. -/
def daysIn (month year : Int) : Int :=
  if month == 2 then (if isLeap year then 29 else 28)
  else if month == 4 || month == 6 || month == 9 || month == 11 then 30
  else 31

/-- Days from 1970-01-01 to the given date of the proleptic Gregorian calendar. -/
def daysFromCivil (year month day : Int) : Int :=
  let y := if month ≤ 2 then year - 1 else year
  let era := y / 400
  let yoe := y - era * 400
  let mp := (month + 9) % 12
  let doy := (153 * mp + 2) / 5 + day - 1
  let doe := yoe * 365 + yoe / 4 - yoe / 100 + doy
  era * 146097 + doe - 719468

/-- Year, month and day of the day that lies `z` days after 1970-01-01, found as
Go's `absDate` finds them: cut off the 400-year cycles, then the 100-year cycles
(at most three), the 4-year cycles and the years (at most three), here with the
years counted from March 1 so that a leap day ends its year. -/
def civilFromDays (z : Int) : Int × Int × Int :=
  let z1 := z + 719468
  let era := z1 / 146097
  let doe := z1 - era * 146097
  let c0 := doe / 36524
  let c := if c0 = 4 then 3 else c0
  let doc := doe - 36524 * c
  let q := doc / 1461
  let doq := doc - 1461 * q
  let r0 := doq / 365
  let r := if r0 = 4 then 3 else r0
  let doy := doq - 365 * r
  let yoe := 100 * c + 4 * q + r
  let mp := (5 * doy + 2) / 153
  let d := doy - (153 * mp + 2) / 5 + 1
  let m := if mp < 10 then mp + 3 else mp - 9
  (if m ≤ 2 then yoe + era * 400 + 1 else yoe + era * 400, m, d)

/-- Days since 1970-01-01 of a clock reading. -/
def dayOf (t : Time) : Int := t / (86400 * Second)

/-- Go `t.Hour()`. -/
def hourOf (t : Time) : Int := t / (3600 * Second) % 24

/-- Go `t.Minute()`: the minute offset within the hour, in `[0, 59]`. -/
def minuteOf (t : Time) : Int := t / Minute % 60

/-- Go `time.Date(year, month, day, hour, min, 0, 0, loc)` for in-range fields. -/
def dateOf (year month day hour min : Int) : Time :=
  (daysFromCivil year month day * 86400 + hour * 3600 + min * 60) * Second

/-- The zero `time.Time`, January 1 of year 1, 00:00. -/
def zeroTime : Time := dateOf 1 1 1 0 0

/-- The decimal digit `n` as a character. -/
def digitChar (n : Int) : Char := Char.ofNat (48 + n.toNat)

/-- Value of a decimal digit character. -/
def digitVal (c : Char) : Int := (c.toNat : Int) - 48

/-- Decimal digits of `n`, most significant first, at least `width` of them
(`fuel` bounds the number of digits produced). -/
def natDigits : Nat → Nat → Nat → List Char
  | 0, _, _ => []
  | fuel + 1, width, n =>
    if n < 10 ∧ width ≤ 1 then [digitChar n]
    else natDigits fuel (width - 1) (n / 10) ++ [digitChar (n % 10 : Nat)]

/-- Go `appendInt(b, x, width)`: sign, then the digits zero-padded to `width`. -/
def appendInt (x : Int) (width : Nat) : List Char :=
  (if x < 0 then ['-'] else []) ++ natDigits (x.natAbs + width + 1) width x.natAbs

/-- The layout constant `minuteTimeLayout = "200601021504"`: year, month, day, hour
and minute, zero-padded, without separators. -/
def minuteTimeLayout : String := "200601021504"

/-- Go `t.Format(minuteTimeLayout)`. -/
def Format (t : Time) : String :=
  let ymd := civilFromDays (dayOf t)
  String.mk (appendInt ymd.1 4 ++ appendInt ymd.2.1 2 ++ appendInt ymd.2.2 2
    ++ appendInt (hourOf t) 2 ++ appendInt (minuteOf t) 2)

/-- Go `time.Parse(minuteTimeLayout, value)`, `none` standing for a non-nil error.
The layout asks for four digits of year and two digits each of month, day, hour and
minute with nothing left over; month, hour, minute and then the day of the month
are range checked. -/
def Parse (value : String) : Option Time :=
  match value.data with
  | [y1, y2, y3, y4, m1, m2, d1, d2, h1, h2, n1, n2] =>
    if [y1, y2, y3, y4, m1, m2, d1, d2, h1, h2, n1, n2].all Char.isDigit then
      let year := digitVal y1 * 1000 + digitVal y2 * 100 + digitVal y3 * 10 + digitVal y4
      let month := digitVal m1 * 10 + digitVal m2
      let day := digitVal d1 * 10 + digitVal d2
      let hour := digitVal h1 * 10 + digitVal h2
      let min := digitVal n1 * 10 + digitVal n2
      if month ≤ 0 ∨ 12 < month then none
      else if 24 ≤ hour then none
      else if 60 ≤ min then none
      else if day < 1 ∨ day > daysIn month year then none
      else some (dateOf year month day hour min)
    else none
  | _ => none

/-! ## The counter collaborator and the counter store -/

/-- Modelled from the spec: the counter objects of the package
`github.com/devfeel/polaris/control/count`, which is outside the repository. A
`count.Counter` value is a reference to an object that supports increment, read of
the aggregate count and reset; `next` is the reference the next `count.NewCounter()`
returns and `count c` is the aggregate held by the object `c`. -/
structure Heap where
  next : Nat
  count : Nat → Int

/-- Modelled from the spec: `count.NewCounter()`, a fresh counter reading zero. -/
def NewCounter (hp : Heap) : Nat × Heap :=
  (hp.next, ⟨hp.next + 1, fun c => if c = hp.next then 0 else hp.count c⟩)

/-- Modelled from the spec: the counter's read of its aggregate count. -/
def Heap.Count (hp : Heap) (c : Nat) : Int := hp.count c

/-- Modelled from the spec: the counter's increment, by one. -/
def Heap.Inc (hp : Heap) (c : Nat) : Heap :=
  ⟨hp.next, fun d => if d = c then hp.count c + 1 else hp.count d⟩

/-- Modelled from the spec: the counter's reset. -/
def Heap.Clear (hp : Heap) (c : Nat) : Heap :=
  ⟨hp.next, fun d => if d = c then 0 else hp.count d⟩

/-- The entries of a `sync.Map` from bucket key to counter reference. -/
abbrev SyncMap := List (String × Nat)

/-- Go `m.Load(key)`. -/
def SyncMap.Load (m : SyncMap) (key : String) : Option Nat :=
  (m.find? fun e => e.1 == key).map Prod.snd

/-- Go `m.Delete(key)`. -/
def SyncMap.Delete (m : SyncMap) (key : String) : SyncMap :=
  m.filter fun e => e.1 != key

/-- Go `m.Store(key, value)`. -/
def SyncMap.Store (m : SyncMap) (key : String) (value : Nat) : SyncMap :=
  (key, value) :: m.Delete key

/-! ## The breaker -/

/-- The constant `status_Hystrix`. -/
def status_Hystrix : Int := 1

/-- The constant `status_Alive`. -/
def status_Alive : Int := 2

/-- The constant `DefaultCheckHystrixInterval`, in seconds. -/
def DefaultCheckHystrixInterval : Int := 10

/-- The constant `DefaultCheckAliveInterval`, in seconds. -/
def DefaultCheckAliveInterval : Int := 60

/-- The constant `DefaultCleanHistoryInterval`, in seconds. -/
def DefaultCleanHistoryInterval : Int := 60 * 5

/-- The constant `DefaultMaxFailedNumber`. -/
def DefaultMaxFailedNumber : Int := 100

/-- The constant `DefaultReserveMinutes`. -/
def DefaultReserveMinutes : Int := 30

/-- The constant `DefaultAutoTryAliveInterval`, in seconds. -/
def DefaultAutoTryAliveInterval : Int := 60 * 5

/-- A value of type `CheckFunc`: one of the two methods of the breaker itself that
`NewHystrix` installs, or a predicate of the caller, known by a name and by the
answer it gives when called at a given time. -/
inductive CheckFunc where
  | defaultCheckHystrix
  | defaultCheckAlive
  | user (name : Nat) (answer : Time → Bool)

/-- A value of type `TriggerFunc`: a callback of the caller, known by a name. -/
structure TriggerFunc where
  name : Nat
  deriving DecidableEq, Repr

/-- The functions handed to `time.AfterFunc` and to `go`. -/
inductive Task where
  | doCheck
  | doCleanHistoryCounter
  deriving DecidableEq, Repr

/-- What the breaker does to the world around it, in the order it does it. -/
inductive Event where
  /-- The call `h.checkAliveFunc()` and its answer. -/
  | checkAliveFunc (answer : Bool)
  /-- The call `h.checkHystrixFunc()` and its answer. -/
  | checkHystrixFunc (answer : Bool)
  /-- The call `h.onTriggerAlive(h)`; `status` is what the handle reads then. -/
  | onTriggerAlive (f : TriggerFunc) (status : Int)
  /-- The call `h.onTriggerHystrix(h)`; `status` is what the handle reads then. -/
  | onTriggerHystrix (f : TriggerFunc) (status : Int)
  /-- The call `time.AfterFunc(d, task)`. -/
  | afterFunc (d : Duration) (task : Task)
  /-- The statement `go task()`. -/
  | go (task : Task)
  deriving DecidableEq, Repr

/-- The struct `StandHystrix`; a `nil` function value is `none`. -/
structure StandHystrix where
  id : String
  status : Int
  lastChangeStatusTime : Time
  checkHystrixFunc : Option CheckFunc
  checkHystrixInterval : Int
  checkAliveFunc : Option CheckFunc
  checkAliveInterval : Int
  maxFailedNumber : Int
  counters : SyncMap
  extendedData : Option String
  onTriggerAlive : Option TriggerFunc
  onTriggerHystrix : Option TriggerFunc

/-- The breaker `h`, the counter objects, and the trace of its outward calls. -/
structure World where
  h : StandHystrix
  heap : Heap
  trace : List Event

/-- Appends an event to the trace. -/
def World.emit (w : World) (e : Event) : World :=
  { w with trace := w.trace ++ [e] }

/-- Go `NewHystrix(checkAlive, checkHysrix)`, called at time `now`. -/
def NewHystrix (checkAlive checkHysrix : Option CheckFunc) (now : Time) : World :=
  let h : StandHystrix :=
    { id := ""
      status := status_Alive
      lastChangeStatusTime := now
      checkHystrixFunc := checkHysrix
      checkHystrixInterval := DefaultCheckHystrixInterval
      checkAliveFunc := checkAlive
      checkAliveInterval := DefaultCheckAliveInterval
      maxFailedNumber := DefaultMaxFailedNumber
      counters := []
      extendedData := none
      onTriggerAlive := none
      onTriggerHystrix := none }
  let h1 : StandHystrix :=
    if h.checkHystrixFunc.isNone then
      { h with checkHystrixFunc := some CheckFunc.defaultCheckHystrix } else h
  let h2 : StandHystrix :=
    if h1.checkAliveFunc.isNone then
      { h1 with checkAliveFunc := some CheckFunc.defaultCheckAlive } else h1
  { h := h2, heap := ⟨0, fun _ => 0⟩, trace := [] }

/-- Go `(h *StandHystrix) Do()`. -/
def Do (w : World) : World :=
  (w.emit (Event.go Task.doCheck)).emit (Event.go Task.doCleanHistoryCounter)

/-- Go `(h *StandHystrix) SetCheckInterval(hystrixInterval, aliveInterval)`. -/
def SetCheckInterval (w : World) (hystrixInterval aliveInterval : Int) : World :=
  let w1 := { w with h := { w.h with checkAliveInterval := aliveInterval } }
  { w1 with h := { w1.h with checkHystrixInterval := hystrixInterval } }

/-- Go `(h *StandHystrix) SetMaxFailedNumber(number)`. -/
def SetMaxFailedNumber (w : World) (number : Int) : World :=
  { w with h := { w.h with maxFailedNumber := number } }

/-- Go `getLastedTimeKey()`, with the clock reading `now`. -/
def getLastedTimeKey (now : Time) : String :=
  let key := Format now
  if minuteOf now / 2 != 0 then
    Format (timeAdd now (-1 * Minute))
  else key

/-- Go `(h *StandHystrix) GetCounter()`: the counter returned and the world after. -/
def GetCounter (w : World) (now : Time) : Nat × World :=
  let key := getLastedTimeKey now
  match w.h.counters.Load key with
  | none =>
    let (counter, heap) := NewCounter w.heap
    (counter, { w with heap := heap, h := { w.h with counters := w.h.counters.Store key counter } })
  | some loadCounter => (loadCounter, w)

/-- Go `(h *StandHystrix) GetID()`. -/
def GetID (w : World) : String := w.h.id

/-- Go `(h *StandHystrix) GetExtendedData()`. -/
def GetExtendedData (w : World) : Option String := w.h.extendedData

/-- Go `(h *StandHystrix) IsHystrix()`. -/
def IsHystrix (w : World) : Bool := w.h.status == status_Hystrix

/-- Go `(h *StandHystrix) RegisterAliveCheck(check)`. -/
def RegisterAliveCheck (w : World) (check : Option CheckFunc) : World :=
  { w with h := { w.h with checkAliveFunc := check } }

/-- Go `(h *StandHystrix) RegisterHystrixCheck(check)`. -/
def RegisterHystrixCheck (w : World) (check : Option CheckFunc) : World :=
  { w with h := { w.h with checkHystrixFunc := check } }

/-- Go `(h *StandHystrix) RegisterOnTriggerAlive(triggerFunc)`. -/
def RegisterOnTriggerAlive (w : World) (triggerFunc : Option TriggerFunc) : World :=
  { w with h := { w.h with onTriggerAlive := triggerFunc } }

/-- Go `(h *StandHystrix) RegisterOnTriggerHystrix(triggerFunc)`. -/
def RegisterOnTriggerHystrix (w : World) (triggerFunc : Option TriggerFunc) : World :=
  { w with h := { w.h with onTriggerHystrix := triggerFunc } }

/-- Go `(h *StandHystrix) TriggerHystrix()`. -/
def TriggerHystrix (w : World) (now : Time) : World :=
  let w1 := { w with h := { w.h with status := status_Hystrix } }
  let w2 := { w1 with h := { w1.h with lastChangeStatusTime := now } }
  match w2.h.onTriggerHystrix with
  | some f => w2.emit (Event.onTriggerHystrix f w2.h.status)
  | none => w2

/-- Go `(h *StandHystrix) TriggerAlive()`. -/
def TriggerAlive (w : World) (now : Time) : World :=
  let w1 := { w with h := { w.h with status := status_Alive } }
  let w2 := { w1 with h := { w1.h with lastChangeStatusTime := now } }
  match w2.h.onTriggerAlive with
  | some f => w2.emit (Event.onTriggerAlive f w2.h.status)
  | none => w2

/-- Go `(h *StandHystrix) SetID(id)`. -/
def SetID (w : World) (id : String) : World :=
  { w with h := { w.h with id := id } }

/-- Go `(h *StandHystrix) SetExtendedData(data)`. -/
def SetExtendedData (w : World) (data : Option String) : World :=
  { w with h := { w.h with extendedData := data } }

/-- Go `(h *StandHystrix) defaultCheckHystrix()`: the answer and the world after
(`GetCounter` may have created the counter of the current bucket). -/
def defaultCheckHystrix (w : World) (now : Time) : Bool × World :=
  let (counter, w1) := GetCounter w now
  let count := w1.heap.Count counter
  if count > w1.h.maxFailedNumber then (true, w1) else (false, w1)

/-- Go `(h *StandHystrix) defaultCheckAlive()`; both sides of the comparison are in
units of `1e-9` seconds. -/
def defaultCheckAlive (w : World) (now : Time) : Bool :=
  if durationSeconds (timeSub now w.h.lastChangeStatusTime) > DefaultAutoTryAliveInterval * 1000000000 then
    true
  else false

/-- Calling a `CheckFunc` value at time `now`: the answer and the world after. -/
def callCheck (f : CheckFunc) (w : World) (now : Time) : Bool × World :=
  match f with
  | CheckFunc.defaultCheckHystrix => defaultCheckHystrix w now
  | CheckFunc.defaultCheckAlive => (defaultCheckAlive w now, w)
  | CheckFunc.user _ answer => (answer now, w)

/-- Go `(h *StandHystrix) doCheck()`, one evaluation tick at time `now`. -/
def doCheck (w : World) (now : Time) : World :=
  match w.h.checkAliveFunc, w.h.checkHystrixFunc with
  | some checkAliveFunc, some checkHystrixFunc =>
    if IsHystrix w then
      let (isAlive, w1) := callCheck checkAliveFunc w now
      let w2 := w1.emit (Event.checkAliveFunc isAlive)
      if isAlive then
        let w3 := TriggerAlive w2 now
        let (counter, w4) := GetCounter w3 now
        let w5 := { w4 with heap := w4.heap.Clear counter }
        w5.emit (Event.afterFunc (secondsDuration w5.h.checkHystrixInterval) Task.doCheck)
      else
        w2.emit (Event.afterFunc (secondsDuration w2.h.checkAliveInterval) Task.doCheck)
    else
      let (isHystrix, w1) := callCheck checkHystrixFunc w now
      let w2 := w1.emit (Event.checkHystrixFunc isHystrix)
      if isHystrix then
        let w3 := TriggerHystrix w2 now
        w3.emit (Event.afterFunc (secondsDuration w3.h.checkAliveInterval) Task.doCheck)
      else
        w2.emit (Event.afterFunc (secondsDuration w2.h.checkHystrixInterval) Task.doCheck)
  | _, _ => w

/-- The value of `now` in `doCleanHistoryCounter` when the clock reads `t`: the
minute-layout rendering of `t` parsed back; a `time.Parse` error, which the code
ignores, leaves the zero time. -/
def parsedNow (t : Time) : Time := (Parse (Format t)).getD zeroTime

/-- The keys that the `Range` scan of `doCleanHistoryCounter` appends to
`needRemoveKey`: those that do not parse and those older than
`DefaultReserveMinutes` minutes at `now`. -/
def needRemoveKey (m : SyncMap) (now : Time) : List String :=
  m.foldl (fun acc e =>
    match Parse e.1 with
    | none => acc ++ [e.1]
    | some t =>
      if timeSub now t > DefaultReserveMinutes * Minute then acc ++ [e.1] else acc) []

/-- Go `(h *StandHystrix) doCleanHistoryCounter()`, one cleanup pass when the clock
reads `t`. -/
def doCleanHistoryCounter (w : World) (t : Time) : World :=
  let now := parsedNow t
  let keys := needRemoveKey w.h.counters now
  let w1 := { w with h := { w.h with counters := keys.foldl SyncMap.Delete w.h.counters } }
  w1.emit (Event.afterFunc (secondsDuration DefaultCleanHistoryInterval) Task.doCleanHistoryCounter)

/-- The operations a caller or a timer can perform on a breaker: the methods of the
interface `Hystrix`, the increment and the reset of a counter obtained from
`GetCounter`, and the two timer-driven passes. -/
inductive Op where
  | Do
  | RegisterAliveCheck (check : Option CheckFunc)
  | RegisterHystrixCheck (check : Option CheckFunc)
  | RegisterOnTriggerHystrix (triggerFunc : Option TriggerFunc)
  | RegisterOnTriggerAlive (triggerFunc : Option TriggerFunc)
  | GetID
  | IsHystrix
  | TriggerHystrix
  | TriggerAlive
  | GetCounter
  | GetExtendedData
  | SetID (id : String)
  | SetCheckInterval (hystrixInterval aliveInterval : Int)
  | SetMaxFailedNumber (number : Int)
  | SetExtendedData (data : Option String)
  | counterInc (counter : Nat)
  | counterClear (counter : Nat)
  | doCheck
  | doCleanHistoryCounter

/-- The world after operation `op` performed at time `now`. -/
def step (w : World) (now : Time) : Op → World
  | Op.Do => Do w
  | Op.RegisterAliveCheck check => RegisterAliveCheck w check
  | Op.RegisterHystrixCheck check => RegisterHystrixCheck w check
  | Op.RegisterOnTriggerHystrix f => RegisterOnTriggerHystrix w f
  | Op.RegisterOnTriggerAlive f => RegisterOnTriggerAlive w f
  | Op.GetID => w
  | Op.IsHystrix => w
  | Op.TriggerHystrix => TriggerHystrix w now
  | Op.TriggerAlive => TriggerAlive w now
  | Op.GetCounter => (GetCounter w now).2
  | Op.GetExtendedData => w
  | Op.SetID id => SetID w id
  | Op.SetCheckInterval a b => SetCheckInterval w a b
  | Op.SetMaxFailedNumber n => SetMaxFailedNumber w n
  | Op.SetExtendedData d => SetExtendedData w d
  | Op.counterInc c => { w with heap := w.heap.Inc c }
  | Op.counterClear c => { w with heap := w.heap.Clear c }
  | Op.doCheck => doCheck w now
  | Op.doCleanHistoryCounter => doCleanHistoryCounter w now

/-- The world after a list of timed operations, performed in order. -/
def run (w : World) : List (Time × Op) → World
  | [] => w
  | (now, op) :: rest => run (step w now op) rest

/-- One reported failure at time `now`: `h.GetCounter().Inc()`. -/
def reportFailure (w : World) (now : Time) : World :=
  let (counter, w1) := GetCounter w now
  { w1 with heap := w1.heap.Inc counter }

/-- The world after `n` failures reported at time `now`. -/
def reportFailures (w : World) (now : Time) : Nat → World
  | 0 => w
  | n + 1 => reportFailure (reportFailures w now n) now

/-- The count read on the counter of the current bucket at time `now`. -/
def currentCount (w : World) (now : Time) : Int :=
  let (counter, w1) := GetCounter w now
  w1.heap.Count counter

/-! ## The retention rule, in the words of the spec -/

/-- The retention rule of the spec: a cleanup pass whose `now` is the given time
keeps a bucket key when the key parses in the minute layout and its age, `now`
minus the time of the key, is at most 30 minutes. -/
def retained (now : Time) (key : String) : Bool :=
  match Parse key with
  | none => false
  | some t => decide (now - t ≤ 30 * Minute)

/-! ## Sample worlds -/

/-- A breaker created at time 0 with the default predicates and tripped at once. -/
def trippedBreaker : World := TriggerHystrix (NewHystrix none none 0) 0

/-- A breaker created at time 0 with the default predicates and threshold 5, whose
current bucket has counted `n` failures. -/
def failingBreaker (n : Nat) : World :=
  reportFailures (SetMaxFailedNumber (NewHystrix none none 0) 5) 0 n

/-! ## Vocabulary for sequences of operations -/

/-- The number of calls `time.AfterFunc(_, h.doCheck)` recorded in a trace. -/
def ticksScheduled (trace : List Event) : Nat :=
  (trace.filter fun e =>
    match e with
    | Event.afterFunc _ Task.doCheck => true
    | _ => false).length

/-- The operations that write a configuration field of the breaker: the `Register`
and the `Set` methods. The others write at most `status`, `lastChangeStatusTime`
and `counters`. -/
def writesConfig (op : Op) : Bool :=
  match op with
  | Op.RegisterAliveCheck _ => true
  | Op.RegisterHystrixCheck _ => true
  | Op.RegisterOnTriggerHystrix _ => true
  | Op.RegisterOnTriggerAlive _ => true
  | Op.SetID _ => true
  | Op.SetCheckInterval _ _ => true
  | Op.SetMaxFailedNumber _ => true
  | Op.SetExtendedData _ => true
  | _ => false

/-- An operation that cannot unset a predicate: any operation other than
`RegisterAliveCheck(nil)` and `RegisterHystrixCheck(nil)`. -/
def keepsPredicates (op : Op) : Prop :=
  match op with
  | Op.RegisterAliveCheck none => False
  | Op.RegisterHystrixCheck none => False
  | _ => True

/-- An operation whose numeric arguments are positive: every operation other than a
`SetCheckInterval` with a non-positive interval and a `SetMaxFailedNumber` with a
non-positive number. -/
def positiveArguments (op : Op) : Prop :=
  match op with
  | Op.SetCheckInterval hystrixInterval aliveInterval => 0 < hystrixInterval ∧ 0 < aliveInterval
  | Op.SetMaxFailedNumber number => 0 < number
  | _ => True

/-- The counter store of a world is well formed when every counter it holds has been
allocated and no two keys hold the same counter. -/
def wellFormed (w : World) : Prop :=
  (∀ k c, w.h.counters.Load k = some c → c < w.heap.next)
  ∧ (∀ k k2 c, w.h.counters.Load k = some c → w.h.counters.Load k2 = some c → k = k2)

/-- A breaker created at time 0 on which `GetCounter` was called at 00:00 and at
00:05, so that its store holds two buckets. -/
def twoBuckets : World :=
  run (NewHystrix none none 0) [(0, Op.GetCounter), (5 * Minute, Op.GetCounter)]

/-- An operation that neither calls `TriggerAlive` directly nor replaces the recovery
predicate. -/
def keepsTripped (op : Op) : Prop :=
  match op with
  | Op.TriggerAlive => False
  | Op.RegisterAliveCheck _ => False
  | _ => True

/-! ## The `time` package: basic facts -/

theorem durationSeconds_eq (d : Duration) : durationSeconds d = d := by
  unfold durationSeconds Second
  have h := Int.tdiv_add_tmod d 1000000000
  linarith

theorem timeSub_gt_iff (t u : Time) (c : Int) (hc : minDuration ≤ c) (hc2 : c < maxDuration) :
    timeSub t u > c ↔ t - u > c := by
  unfold timeSub
  simp only [maxDuration, minDuration, Time, Duration] at *
  split_ifs <;> omega

theorem defaultCheckAlive_iff (w : World) (now : Time) :
    defaultCheckAlive w now = true ↔ now - w.h.lastChangeStatusTime > 300 * Second := by
  unfold defaultCheckAlive
  rw [durationSeconds_eq]
  have h := timeSub_gt_iff now w.h.lastChangeStatusTime (DefaultAutoTryAliveInterval * 1000000000)
    (by decide) (by decide)
  have e : DefaultAutoTryAliveInterval * 1000000000 = 300 * Second := by decide
  rw [e] at h ⊢
  constructor
  · intro hh
    by_contra hn
    rw [if_neg (fun x => hn (h.mp x))] at hh
    exact Bool.noConfusion hh
  · intro hh
    rw [if_pos (h.mpr hh)]

/-! ## The minute layout: rendering and parsing back -/

theorem civil_decomp (doe : Int) (h0 : 0 ≤ doe) (h1 : doe < 146097) :
    let c0 := doe / 36524
    let c := if c0 = 4 then 3 else c0
    let doc := doe - 36524 * c
    let q := doc / 1461
    let doq := doc - 1461 * q
    let r0 := doq / 365
    let r := if r0 = 4 then 3 else r0
    let doy := doq - 365 * r
    0 ≤ c ∧ c ≤ 3 ∧ 0 ≤ q ∧ q ≤ 24 ∧ 0 ≤ r ∧ r ≤ 3 ∧ 0 ≤ doy ∧ doy ≤ 365
    ∧ (doy = 365 → r = 3 ∧ (q ≠ 24 ∨ c = 3))
    ∧ doe = 36524 * c + 1461 * q + 365 * r + doy := by
  intro c0 c doc q doq r0 r doy
  simp only [c0, c, doc, q, doq, r0, r, doy]
  split_ifs <;> omega

theorem civil_monthday (doy : Int) (h0 : 0 ≤ doy) (h1 : doy ≤ 365) :
    let mp := (5 * doy + 2) / 153
    let d := doy - (153 * mp + 2) / 5 + 1
    0 ≤ mp ∧ mp ≤ 11 ∧ 1 ≤ d ∧ d ≤ 31
    ∧ ((mp = 1 ∨ mp = 3 ∨ mp = 6 ∨ mp = 8) → d ≤ 30)
    ∧ (mp = 11 → d ≤ 29 ∧ (d = 29 → doy = 365)) := by
  intro mp d
  simp only [mp, d]
  omega

theorem isLeap_iff (y : Int) :
    isLeap y = true ↔ (y % 4 = 0 ∧ (y % 100 ≠ 0 ∨ y % 400 = 0)) := by
  simp [isLeap]


theorem daysFromCivil_of (era c q r doy mp d : Int)
    (hc0 : 0 ≤ c) (hc3 : c ≤ 3) (hq0 : 0 ≤ q) (hq24 : q ≤ 24) (hr0 : 0 ≤ r) (hr3 : r ≤ 3)
    (hm0 : 0 ≤ mp) (hm11 : mp ≤ 11) (hd : d = doy - (153 * mp + 2) / 5 + 1) :
    daysFromCivil
      (if (if mp < 10 then mp + 3 else mp - 9) ≤ 2 then 100 * c + 4 * q + r + era * 400 + 1
        else 100 * c + 4 * q + r + era * 400)
      (if mp < 10 then mp + 3 else mp - 9) d
      = era * 146097 + (36524 * c + 1461 * q + 365 * r + doy) - 719468 := by
  have hy : (if (if mp < 10 then mp + 3 else mp - 9) ≤ 2 then
      (if (if mp < 10 then mp + 3 else mp - 9) ≤ 2 then 100 * c + 4 * q + r + era * 400 + 1
        else 100 * c + 4 * q + r + era * 400) - 1
      else (if (if mp < 10 then mp + 3 else mp - 9) ≤ 2 then 100 * c + 4 * q + r + era * 400 + 1
        else 100 * c + 4 * q + r + era * 400)) = 100 * c + 4 * q + r + era * 400 := by
    split_ifs <;> omega
  have hmp : ((if mp < 10 then mp + 3 else mp - 9) + 9) % 12 = mp := by
    split_ifs <;> omega
  have e1 : (100 * c + 4 * q + r + era * 400) / 400 = era := by omega
  have e2 : (100 * c + 4 * q + r + era * 400) - era * 400 = 100 * c + 4 * q + r := by omega
  have e3 : (100 * c + 4 * q + r) / 4 = 25 * c + q := by omega
  have e4 : (100 * c + 4 * q + r) / 100 = c := by omega
  unfold daysFromCivil
  simp only [hy, hmp, e1, e2, e3, e4]
  omega

theorem civil_roundtrip (z : Int) :
    daysFromCivil (civilFromDays z).1 (civilFromDays z).2.1 (civilFromDays z).2.2 = z
    ∧ 1 ≤ (civilFromDays z).2.1 ∧ (civilFromDays z).2.1 ≤ 12
    ∧ 1 ≤ (civilFromDays z).2.2
    ∧ (civilFromDays z).2.2 ≤ daysIn (civilFromDays z).2.1 (civilFromDays z).1 := by
  obtain ⟨era, hera⟩ : ∃ e, (z + 719468) / 146097 = e := ⟨_, rfl⟩
  obtain ⟨doe, hdoe⟩ : ∃ e, (z + 719468) - era * 146097 = e := ⟨_, rfl⟩
  have hd0 : 0 ≤ doe ∧ doe < 146097 := by omega
  have hD := civil_decomp doe hd0.1 hd0.2
  simp only at hD
  obtain ⟨c, hc⟩ : ∃ c, (if doe / 36524 = 4 then 3 else doe / 36524) = c := ⟨_, rfl⟩
  rw [hc] at hD
  obtain ⟨q, hq⟩ : ∃ q, (doe - 36524 * c) / 1461 = q := ⟨_, rfl⟩
  rw [hq] at hD
  obtain ⟨r, hr⟩ : ∃ r, (if (doe - 36524 * c - 1461 * q) / 365 = 4 then 3
      else (doe - 36524 * c - 1461 * q) / 365) = r := ⟨_, rfl⟩
  rw [hr] at hD
  obtain ⟨doy, hdoy⟩ : ∃ d, doe - 36524 * c - 1461 * q - 365 * r = d := ⟨_, rfl⟩
  rw [hdoy] at hD
  have hM := civil_monthday doy hD.2.2.2.2.2.2.1 hD.2.2.2.2.2.2.2.1
  simp only at hM
  obtain ⟨mp, hmp⟩ : ∃ m, (5 * doy + 2) / 153 = m := ⟨_, rfl⟩
  rw [hmp] at hM
  obtain ⟨d, hd⟩ : ∃ m, doy - (153 * mp + 2) / 5 + 1 = m := ⟨_, rfl⟩
  rw [hd] at hM
  have hciv : civilFromDays z =
      (if (if mp < 10 then mp + 3 else mp - 9) ≤ 2 then 100 * c + 4 * q + r + era * 400 + 1
        else 100 * c + 4 * q + r + era * 400, (if mp < 10 then mp + 3 else mp - 9), d) := by
    simp only [civilFromDays, hera, hdoe, hc, hq, hr, hdoy, hmp, hd]
  rw [hciv]
  simp only
  obtain ⟨hc0, hc3, hq0, hq24, hr0, hr3, hy0, hy365, hleap, hsum⟩ := hD
  obtain ⟨hm0, hm11, hd1, hd31, hd30, hfeb⟩ := hM
  clear hc hq hr hmp hciv hera
  refine ⟨?_, ?_, ?_, hd1, ?_⟩
  · rw [daysFromCivil_of era c q r doy mp d hc0 hc3 hq0 hq24 hr0 hr3 hm0 hm11 hd.symm]
    omega
  · split_ifs <;> omega
  · split_ifs <;> omega
  · clear hd hdoy hdoe hsum
    unfold daysIn
    by_cases h10 : mp < 10
    · simp only [h10, if_true]
      have hm2 : ¬ (mp + 3 ≤ 2) := by omega
      have hne : ¬ (mp + 3 = 2) := by omega
      simp only [beq_iff_eq, hne, if_false, Bool.or_eq_true]
      split_ifs with h <;> omega
    · simp only [h10, if_false]
      by_cases h11 : mp = 11
      · subst h11
        norm_num
        split_ifs with h
        · omega
        · rw [isLeap_iff] at h
          have := hfeb rfl
          omega
      · have hm : mp = 10 := by omega
        subst hm
        norm_num
        omega

theorem civil_year_range (z : Int) (h0 : -719528 ≤ z) (h1 : z < 2932897) :
    0 ≤ (civilFromDays z).1 ∧ (civilFromDays z).1 ≤ 9999 := by
  obtain ⟨era, hera⟩ : ∃ e, (z + 719468) / 146097 = e := ⟨_, rfl⟩
  obtain ⟨doe, hdoe⟩ : ∃ e, (z + 719468) - era * 146097 = e := ⟨_, rfl⟩
  have hd0 : 0 ≤ doe ∧ doe < 146097 := by omega
  have hD := civil_decomp doe hd0.1 hd0.2
  simp only at hD
  obtain ⟨c, hc⟩ : ∃ c, (if doe / 36524 = 4 then 3 else doe / 36524) = c := ⟨_, rfl⟩
  rw [hc] at hD
  obtain ⟨q, hq⟩ : ∃ q, (doe - 36524 * c) / 1461 = q := ⟨_, rfl⟩
  rw [hq] at hD
  obtain ⟨r, hr⟩ : ∃ r, (if (doe - 36524 * c - 1461 * q) / 365 = 4 then 3
      else (doe - 36524 * c - 1461 * q) / 365) = r := ⟨_, rfl⟩
  rw [hr] at hD
  obtain ⟨doy, hdoy⟩ : ∃ d, doe - 36524 * c - 1461 * q - 365 * r = d := ⟨_, rfl⟩
  rw [hdoy] at hD
  obtain ⟨mp, hmp⟩ : ∃ m, (5 * doy + 2) / 153 = m := ⟨_, rfl⟩
  have hciv : (civilFromDays z).1 =
      (if (if mp < 10 then mp + 3 else mp - 9) ≤ 2 then 100 * c + 4 * q + r + era * 400 + 1
        else 100 * c + 4 * q + r + era * 400) := by
    simp only [civilFromDays, hera, hdoe, hc, hq, hr, hdoy, hmp]
  rw [hciv]
  obtain ⟨hc0, hc3, hq0, hq24, hr0, hr3, hy0, hy365, hleap, hsum⟩ := hD
  clear hc hq hr hciv hdoy
  have hera1 : -1 ≤ era ∧ era ≤ 24 := by omega
  by_cases hneg : era = -1
  · subst hneg
    have h3 : c = 3 := by omega
    subst h3
    have h24 : q = 24 := by omega
    subst h24
    have h3r : r = 3 := by omega
    subst h3r
    have hmp10 : 10 ≤ mp := by omega
    split_ifs <;> omega
  · by_cases h24 : era = 24
    · subst h24
      by_cases hY : 100 * c + 4 * q + r = 399
      · have h3 : c = 3 := by omega
        subst h3
        have h24 : q = 24 := by omega
        subst h24
        have h3r : r = 3 := by omega
        subst h3r
        have hmp10 : mp < 10 := by omega
        split_ifs <;> omega
      · split_ifs <;> omega
    · split_ifs <;> omega

theorem digitChar_isDigit (k : Int) (h0 : 0 ≤ k) (h1 : k ≤ 9) :
    (digitChar k).isDigit = true ∧ digitVal (digitChar k) = k := by
  interval_cases k <;> decide

theorem appendInt_two (x : Int) (h0 : 0 ≤ x) (h1 : x ≤ 99) :
    appendInt x 2 = [digitChar (x / 10), digitChar (x % 10)] := by
  obtain ⟨n, rfl⟩ := Int.eq_ofNat_of_zero_le h0
  have hn : n ≤ 99 := by omega
  have hx : ¬ ((n : Int) < 0) := by omega
  have h10 : n / 10 < 10 := by omega
  simp only [appendInt, hx, if_false, Int.natAbs_ofNat, List.nil_append, natDigits]
  simp [h10]

theorem appendInt_four (x : Int) (h0 : 0 ≤ x) (h1 : x ≤ 9999) :
    appendInt x 4 = [digitChar (x / 1000), digitChar (x / 100 % 10), digitChar (x / 10 % 10),
      digitChar (x % 10)] := by
  obtain ⟨n, rfl⟩ := Int.eq_ofNat_of_zero_le h0
  have hn : n ≤ 9999 := by omega
  have hx : ¬ ((n : Int) < 0) := by omega
  have h10 : n / 10 / 10 / 10 < 10 := by omega
  simp only [appendInt, hx, if_false, Int.natAbs_ofNat, List.nil_append, natDigits]
  simp [h10]
  have e1 : (n : Int) / 10 / 10 / 10 = n / 1000 := by omega
  have e2 : (n : Int) / 10 / 10 = n / 100 := by omega
  rw [e1, e2]
  exact ⟨rfl, rfl⟩

theorem Parse_mk (y1 y2 y3 y4 m1 m2 d1 d2 h1 h2 n1 n2 : Int)
    (hy1 : 0 ≤ y1 ∧ y1 ≤ 9) (hy2 : 0 ≤ y2 ∧ y2 ≤ 9) (hy3 : 0 ≤ y3 ∧ y3 ≤ 9)
    (hy4 : 0 ≤ y4 ∧ y4 ≤ 9) (hm1 : 0 ≤ m1 ∧ m1 ≤ 9) (hm2 : 0 ≤ m2 ∧ m2 ≤ 9)
    (hd1 : 0 ≤ d1 ∧ d1 ≤ 9) (hd2 : 0 ≤ d2 ∧ d2 ≤ 9) (hh1 : 0 ≤ h1 ∧ h1 ≤ 9)
    (hh2 : 0 ≤ h2 ∧ h2 ≤ 9) (hn1 : 0 ≤ n1 ∧ n1 ≤ 9) (hn2 : 0 ≤ n2 ∧ n2 ≤ 9)
    (hmonth : 1 ≤ m1 * 10 + m2 ∧ m1 * 10 + m2 ≤ 12)
    (hhour : h1 * 10 + h2 < 24) (hmin : n1 * 10 + n2 < 60)
    (hday : 1 ≤ d1 * 10 + d2 ∧ d1 * 10 + d2
      ≤ daysIn (m1 * 10 + m2) (y1 * 1000 + y2 * 100 + y3 * 10 + y4)) :
    Parse (String.mk [digitChar y1, digitChar y2, digitChar y3, digitChar y4, digitChar m1,
      digitChar m2, digitChar d1, digitChar d2, digitChar h1, digitChar h2, digitChar n1,
      digitChar n2])
      = some (dateOf (y1 * 1000 + y2 * 100 + y3 * 10 + y4) (m1 * 10 + m2) (d1 * 10 + d2)
          (h1 * 10 + h2) (n1 * 10 + n2)) := by
  have a1 := digitChar_isDigit y1 hy1.1 hy1.2
  have a2 := digitChar_isDigit y2 hy2.1 hy2.2
  have a3 := digitChar_isDigit y3 hy3.1 hy3.2
  have a4 := digitChar_isDigit y4 hy4.1 hy4.2
  have a5 := digitChar_isDigit m1 hm1.1 hm1.2
  have a6 := digitChar_isDigit m2 hm2.1 hm2.2
  have a7 := digitChar_isDigit d1 hd1.1 hd1.2
  have a8 := digitChar_isDigit d2 hd2.1 hd2.2
  have a9 := digitChar_isDigit h1 hh1.1 hh1.2
  have a10 := digitChar_isDigit h2 hh2.1 hh2.2
  have a11 := digitChar_isDigit n1 hn1.1 hn1.2
  have a12 := digitChar_isDigit n2 hn2.1 hn2.2
  have c1 : ¬ (m1 * 10 + m2 ≤ 0 ∨ 12 < m1 * 10 + m2) := by omega
  have c2 : ¬ (24 ≤ h1 * 10 + h2) := by omega
  have c3 : ¬ (60 ≤ n1 * 10 + n2) := by omega
  have c4 : ¬ (d1 * 10 + d2 < 1 ∨ d1 * 10 + d2
      > daysIn (m1 * 10 + m2) (y1 * 1000 + y2 * 100 + y3 * 10 + y4)) := by
    intro h
    rcases h with h | h
    · omega
    · exact absurd hday.2 (not_le.mpr h)
  simp only [Parse, List.all_cons, List.all_nil, a1.1, a2.1, a3.1, a4.1, a5.1, a6.1, a7.1,
    a8.1, a9.1, a10.1, a11.1, a12.1, a1.2, a2.2, a3.2, a4.2, a5.2, a6.2, a7.2, a8.2, a9.2,
    a10.2, a11.2, a12.2, Bool.and_self, if_true, c1, c2, c3, c4, if_false]

theorem Parse_Format (t : Time) (h0 : dateOf 0 1 1 0 0 ≤ t) (h1 : t < dateOf 10000 1 1 0 0) :
    Parse (Format t) = some (t - t % Minute) := by
  have e0 : dateOf 0 1 1 0 0 = -62167219200000000000 := by decide
  have e1 : dateOf 10000 1 1 0 0 = 253402300800000000000 := by decide
  rw [e0] at h0
  rw [e1] at h1
  simp only [Time] at h0 h1
  obtain ⟨z, hz⟩ : ∃ z, dayOf t = z := ⟨_, rfl⟩
  have hz2 := hz
  simp only [dayOf, Second, Time, Duration] at hz2
  have hzr : -719528 ≤ z ∧ z < 2932897 := by omega
  have hY := civil_year_range z hzr.1 hzr.2
  have hR := civil_roundtrip z
  obtain ⟨y, m, d, hymd⟩ : ∃ y m d, civilFromDays z = (y, m, d) := ⟨_, _, _, rfl⟩
  rw [hymd] at hY hR
  simp only at hY hR
  obtain ⟨hh, hhv⟩ : ∃ x, hourOf t = x := ⟨_, rfl⟩
  obtain ⟨mm, hmv⟩ : ∃ x, minuteOf t = x := ⟨_, rfl⟩
  have hhv2 := hhv
  have hmv2 := hmv
  simp only [hourOf, Second, Time, Duration] at hhv2
  simp only [minuteOf, Minute, Second, Time, Duration] at hmv2
  have hhr : 0 ≤ hh ∧ hh ≤ 23 := by omega
  have hmr : 0 ≤ mm ∧ mm ≤ 59 := by omega
  obtain ⟨hrt, hm1, hm12, hd1, hdin⟩ := hR
  have hd31 : d ≤ 31 := by
    have : daysIn m y ≤ 31 := by
      unfold daysIn
      split_ifs <;> omega
    omega
  have hF : Format t = String.mk [digitChar (y / 1000), digitChar (y / 100 % 10),
      digitChar (y / 10 % 10), digitChar (y % 10), digitChar (m / 10), digitChar (m % 10),
      digitChar (d / 10), digitChar (d % 10), digitChar (hh / 10), digitChar (hh % 10),
      digitChar (mm / 10), digitChar (mm % 10)] := by
    unfold Format
    simp only [hz, hymd, hhv, hmv]
    rw [appendInt_four y hY.1 hY.2, appendInt_two m (by omega) (by omega),
      appendInt_two d (by omega) (by omega), appendInt_two hh hhr.1 (by omega),
      appendInt_two mm hmr.1 (by omega)]
    rfl
  have ey : y / 1000 * 1000 + y / 100 % 10 * 100 + y / 10 % 10 * 10 + y % 10 = y := by omega
  have em : m / 10 * 10 + m % 10 = m := by omega
  have ed : d / 10 * 10 + d % 10 = d := by omega
  have eh : hh / 10 * 10 + hh % 10 = hh := by omega
  have en : mm / 10 * 10 + mm % 10 = mm := by omega
  rw [hF, Parse_mk (y / 1000) (y / 100 % 10) (y / 10 % 10) (y % 10) (m / 10) (m % 10) (d / 10)
    (d % 10) (hh / 10) (hh % 10) (mm / 10) (mm % 10) (by omega) (by omega) (by omega) (by omega)
    (by omega) (by omega) (by omega) (by omega) (by omega) (by omega) (by omega) (by omega)
    (by omega) (by omega) (by omega) (by rw [ey, em, ed]; exact ⟨hd1, hdin⟩)]
  rw [ey, em, ed, eh, en]
  congr 1
  unfold dateOf
  rw [hrt]
  simp only [Minute, Second, Time, Duration]
  omega

theorem Format_Parse_samples :
    Format 0 = "197001010000"
    ∧ Format 1793786400000000000 = "202611041000"
    ∧ Format (dateOf 2024 2 29 23 59 + 59 * Second) = "202402292359"
    ∧ Format (-1) = "196912312359"
    ∧ Parse "202611041000" = some 1793786400000000000
    ∧ Parse "202402300000" = none
    ∧ Parse "2026110410" = none
    ∧ Parse "20261104100x" = none := by
  decide

theorem parsedNow_eq (t : Time) (h0 : dateOf 0 1 1 0 0 ≤ t) (h1 : t < dateOf 10000 1 1 0 0) :
    parsedNow t = t - t % Minute := by
  unfold parsedNow
  rw [Parse_Format t h0 h1]
  rfl

/-! ## The counter store: basic facts -/

theorem Load_Delete_self (m : SyncMap) (k : String) : (m.Delete k).Load k = none := by
  simp [SyncMap.Load, SyncMap.Delete]

theorem Load_Delete_ne (m : SyncMap) (k k2 : String) (hk : k2 ≠ k) :
    (m.Delete k).Load k2 = m.Load k2 := by
  unfold SyncMap.Load SyncMap.Delete
  rw [List.find?_filter]
  have hf : (fun (a : String × Nat) => decide ((a.1 != k) = true ∧ (a.1 == k2) = true))
      = (fun e => e.1 == k2) := by
    funext a
    by_cases h : a.1 = k2
    · simp [h, hk]
    · simp [h]
  rw [hf]

theorem Load_Store_self (m : SyncMap) (k : String) (v : Nat) : (m.Store k v).Load k = some v := by
  simp [SyncMap.Load, SyncMap.Store, List.find?_cons]

theorem Load_Store_ne (m : SyncMap) (k k2 : String) (v : Nat) (hk : k2 ≠ k) :
    (m.Store k v).Load k2 = m.Load k2 := by
  have h := Load_Delete_ne m k k2 hk
  have hk2 : ¬ k = k2 := fun x => hk x.symm
  simpa [SyncMap.Load, SyncMap.Store, List.find?_cons, hk2] using h

/-! ## `GetCounter`: basic facts -/

theorem GetCounter_of_some (w : World) (now : Time) (c : Nat)
    (h : w.h.counters.Load (getLastedTimeKey now) = some c) : GetCounter w now = (c, w) := by
  unfold GetCounter
  simp only [h]

theorem GetCounter_of_none (w : World) (now : Time)
    (h : w.h.counters.Load (getLastedTimeKey now) = none) :
    GetCounter w now = (w.heap.next,
      { w with
        heap := (NewCounter w.heap).2
        h := { w.h with counters := w.h.counters.Store (getLastedTimeKey now) w.heap.next } }) := by
  unfold GetCounter
  simp only [h, NewCounter]

theorem GetCounter_Load (w : World) (now : Time) :
    (GetCounter w now).2.h.counters.Load (getLastedTimeKey now) = some (GetCounter w now).1 := by
  cases h : w.h.counters.Load (getLastedTimeKey now) with
  | none => rw [GetCounter_of_none w now h]; exact Load_Store_self _ _ _
  | some c => rw [GetCounter_of_some w now c h]; exact h

theorem GetCounter_trace (w : World) (now : Time) : (GetCounter w now).2.trace = w.trace := by
  cases h : w.h.counters.Load (getLastedTimeKey now) with
  | none => rw [GetCounter_of_none w now h]
  | some c => rw [GetCounter_of_some w now c h]

theorem GetCounter_maxFailedNumber (w : World) (now : Time) :
    (GetCounter w now).2.h.maxFailedNumber = w.h.maxFailedNumber := by
  cases h : w.h.counters.Load (getLastedTimeKey now) with
  | none => rw [GetCounter_of_none w now h]
  | some c => rw [GetCounter_of_some w now c h]

theorem GetCounter_again (w : World) (now now2 : Time)
    (hk : getLastedTimeKey now2 = getLastedTimeKey now) :
    GetCounter (GetCounter w now).2 now2 = GetCounter w now := by
  have h := GetCounter_Load w now
  rw [← hk] at h
  exact GetCounter_of_some _ now2 _ h

theorem defaultCheckHystrix_eq (w : World) (now : Time) :
    defaultCheckHystrix w now
      = (decide (currentCount w now > w.h.maxFailedNumber), (GetCounter w now).2) := by
  have hm := GetCounter_maxFailedNumber w now
  unfold defaultCheckHystrix currentCount
  rcases hg : GetCounter w now with ⟨c, w1⟩
  rw [hg] at hm
  simp only at hm ⊢
  rw [hm]
  by_cases h : w1.heap.Count c > w.h.maxFailedNumber
  · simp [h]
  · simp [h]

theorem currentCount_reportFailure (w : World) (now : Time) :
    currentCount (reportFailure w now) now = currentCount w now + 1 := by
  unfold currentCount reportFailure
  have h := GetCounter_Load w now
  have e : GetCounter { (GetCounter w now).2 with
      heap := (GetCounter w now).2.heap.Inc (GetCounter w now).1 } now
      = ((GetCounter w now).1, { (GetCounter w now).2 with
      heap := (GetCounter w now).2.heap.Inc (GetCounter w now).1 }) :=
    GetCounter_of_some _ now _ h
  simp only [e]
  simp [Heap.Count, Heap.Inc]

theorem reportFailure_maxFailedNumber (w : World) (now : Time) :
    (reportFailure w now).h.maxFailedNumber = w.h.maxFailedNumber := by
  unfold reportFailure
  exact GetCounter_maxFailedNumber w now

theorem currentCount_reportFailures (w : World) (now : Time) (n : Nat) :
    currentCount (reportFailures w now n) now = currentCount w now + n := by
  induction n with
  | zero => simp [reportFailures]
  | succ n ih =>
    simp only [reportFailures]
    rw [currentCount_reportFailure, ih]
    push_cast
    ring

theorem reportFailures_maxFailedNumber (w : World) (now : Time) (n : Nat) :
    (reportFailures w now n).h.maxFailedNumber = w.h.maxFailedNumber := by
  induction n with
  | zero => rfl
  | succ n ih =>
    simp only [reportFailures]
    rw [reportFailure_maxFailedNumber, ih]

/-! ## The default predicates -/

/-- C1: for every breaker state, `defaultCheckHystrix` answers true exactly when the
count read on the counter that `GetCounter` returns exceeds `maxFailedNumber`, hence
false when the count equals it; after `n` further increments of the current bucket
the answer is true exactly when the count reached exceeds the threshold; with the
threshold 5 on a fresh breaker, six increments answer true and five answer false. -/
theorem defaultCheckHystrix_true_iff (w : World) (now t0 : Time) (n : Nat) :
    ((defaultCheckHystrix w now).1 = true ↔ currentCount w now > w.h.maxFailedNumber)
    ∧ (currentCount w now = w.h.maxFailedNumber → (defaultCheckHystrix w now).1 = false)
    ∧ ((defaultCheckHystrix (reportFailures w now n) now).1 = true
        ↔ currentCount w now + n > w.h.maxFailedNumber)
    ∧ (defaultCheckHystrix
        (reportFailures (SetMaxFailedNumber (NewHystrix none none t0) 5) now 6) now).1 = true
    ∧ (defaultCheckHystrix
        (reportFailures (SetMaxFailedNumber (NewHystrix none none t0) 5) now 5) now).1 = false := by
  have key : ∀ (v : World) (k : Nat), ((defaultCheckHystrix (reportFailures v now k) now).1 = true
      ↔ currentCount v now + k > v.h.maxFailedNumber) := by
    intro v k
    rw [defaultCheckHystrix_eq, currentCount_reportFailures, reportFailures_maxFailedNumber]
    simp
  have fresh : currentCount (SetMaxFailedNumber (NewHystrix none none t0) 5) now = 0 := by
    simp [currentCount, GetCounter, SetMaxFailedNumber, NewHystrix, SyncMap.Load, NewCounter,
      Heap.Count]
  have m5 : (SetMaxFailedNumber (NewHystrix none none t0) 5).h.maxFailedNumber = 5 := rfl
  refine ⟨?_, ?_, key w n, ?_, ?_⟩
  · rw [defaultCheckHystrix_eq]; simp
  · intro h
    rw [defaultCheckHystrix_eq, h]; simp
  · rw [key, fresh, m5]; decide
  · have h := key (SetMaxFailedNumber (NewHystrix none none t0) 5) 5
    rw [fresh, m5] at h
    cases hb : (defaultCheckHystrix
        (reportFailures (SetMaxFailedNumber (NewHystrix none none t0) 5) now 5) now).1 with
    | false => rfl
    | true => exact absurd (h.mp hb) (by decide)

/-- Witness of C1: a breaker with threshold 5 whose current bucket counts 5. -/
theorem defaultCheckHystrix_true_iff_witness :
    currentCount (reportFailures (SetMaxFailedNumber (NewHystrix none none 0) 5) 0 5) 0
        = (reportFailures (SetMaxFailedNumber (NewHystrix none none 0) 5) 0 5).h.maxFailedNumber
    ∧ (defaultCheckHystrix
        (reportFailures (SetMaxFailedNumber (NewHystrix none none 0) 5) 0 5) 0).1 = false :=
  ⟨by decide,
    (defaultCheckHystrix_true_iff
      (reportFailures (SetMaxFailedNumber (NewHystrix none none 0) 5) 0 5) 0 0 0).2.1 (by decide)⟩

/-- C2: for every breaker and every time `now`, `defaultCheckAlive` answers true
exactly when `now` minus `lastChangeStatusTime` is strictly more than 300 seconds,
so it answers false at exactly 300 seconds; the answer is the same whatever the
values of `checkHystrixInterval`, `checkAliveInterval` and `maxFailedNumber`. -/
theorem defaultCheckAlive_true_iff (w : World) (now : Time) (hystrixInterval aliveInterval : Int)
    (number : Int) :
    (defaultCheckAlive w now = true ↔ now - w.h.lastChangeStatusTime > 300 * Second)
    ∧ defaultCheckAlive w (w.h.lastChangeStatusTime + 300 * Second) = false
    ∧ defaultCheckAlive w (w.h.lastChangeStatusTime + 300 * Second + 1) = true
    ∧ defaultCheckAlive
        (SetMaxFailedNumber (SetCheckInterval w hystrixInterval aliveInterval) number) now
        = defaultCheckAlive w now := by
  refine ⟨defaultCheckAlive_iff w now, ?_, ?_, rfl⟩
  · cases hb : defaultCheckAlive w (w.h.lastChangeStatusTime + 300 * Second) with
    | false => rfl
    | true =>
      have h := (defaultCheckAlive_iff w _).mp hb
      simp only [Second, Time, Duration] at h
      omega
  · rw [defaultCheckAlive_iff]
    simp only [Second, Time, Duration]
    omega

/-! ## The evaluation tick -/

theorem GetCounter_world (w : World) (now : Time) :
    ∃ hp m, (GetCounter w now).2 = { w with heap := hp, h := { w.h with counters := m } }
      ∧ (∀ c, c < w.heap.next → hp.Count c = w.heap.Count c)
      ∧ (∀ k c, w.h.counters.Load k = some c → m.Load k = some c) := by
  cases h : w.h.counters.Load (getLastedTimeKey now) with
  | none =>
    rw [GetCounter_of_none w now h]
    refine ⟨_, _, rfl, ?_, ?_⟩
    · intro c hc
      have hne : c ≠ w.heap.next := Nat.ne_of_lt hc
      simp [NewCounter, Heap.Count, hne]
    · intro k c hk
      have hne : k ≠ getLastedTimeKey now := by
        intro e
        rw [e, h] at hk
        exact Option.noConfusion hk
      rw [Load_Store_ne _ _ _ _ hne]
      exact hk
  | some c =>
    rw [GetCounter_of_some w now c h]
    exact ⟨w.heap, w.h.counters, rfl, fun _ _ => rfl, fun _ _ hk => hk⟩

theorem callCheck_world (f : CheckFunc) (w : World) (now : Time) :
    ∃ hp m, (callCheck f w now).2 = { w with heap := hp, h := { w.h with counters := m } }
      ∧ (∀ c, c < w.heap.next → hp.Count c = w.heap.Count c)
      ∧ (∀ k c, w.h.counters.Load k = some c → m.Load k = some c) := by
  cases f with
  | defaultCheckHystrix =>
    simp only [callCheck, defaultCheckHystrix_eq]
    exact GetCounter_world w now
  | defaultCheckAlive =>
    exact ⟨w.heap, w.h.counters, rfl, fun _ _ => rfl, fun _ _ hk => hk⟩
  | user name answer =>
    exact ⟨w.heap, w.h.counters, rfl, fun _ _ => rfl, fun _ _ hk => hk⟩

theorem callCheck_self (f : CheckFunc) (w : World) (now : Time)
    (hf : f ≠ CheckFunc.defaultCheckHystrix) : (callCheck f w now).2 = w := by
  cases f with
  | defaultCheckHystrix => exact absurd rfl hf
  | defaultCheckAlive => rfl
  | user name answer => rfl

theorem currentCount_Clear (w : World) (now : Time) :
    currentCount { (GetCounter w now).2 with
      heap := (GetCounter w now).2.heap.Clear (GetCounter w now).1 } now = 0 := by
  have h := GetCounter_Load w now
  have e : GetCounter { (GetCounter w now).2 with
      heap := (GetCounter w now).2.heap.Clear (GetCounter w now).1 } now
      = ((GetCounter w now).1, { (GetCounter w now).2 with
      heap := (GetCounter w now).2.heap.Clear (GetCounter w now).1 }) :=
    GetCounter_of_some _ now _ h
  unfold currentCount
  simp only [e]
  simp [Heap.Count, Heap.Clear]

theorem currentCount_congr (v w : World) (now : Time) (h1 : v.h.counters = w.h.counters)
    (h2 : v.heap = w.heap) : currentCount v now = currentCount w now := by
  cases hl : w.h.counters.Load (getLastedTimeKey now) with
  | none =>
    have hv : v.h.counters.Load (getLastedTimeKey now) = none := by rw [h1]; exact hl
    unfold currentCount
    rw [GetCounter_of_none w now hl, GetCounter_of_none v now hv]
    simp [NewCounter, Heap.Count]
  | some c =>
    have hv : v.h.counters.Load (getLastedTimeKey now) = some c := by rw [h1]; exact hl
    unfold currentCount
    rw [GetCounter_of_some w now c hl, GetCounter_of_some v now c hv]
    simp only [h2]

theorem currentCount_emit (w : World) (now : Time) (e : Event) :
    currentCount (w.emit e) now = currentCount w now := by
  unfold currentCount GetCounter World.emit
  cases h : w.h.counters.Load (getLastedTimeKey now) <;> simp [h]

theorem GetCounter_h (w : World) (now : Time) :
    (GetCounter w now).2.h = { w.h with counters := (GetCounter w now).2.h.counters } := by
  cases h : w.h.counters.Load (getLastedTimeKey now) with
  | none => rw [GetCounter_of_none w now h]
  | some c => rw [GetCounter_of_some w now c h]

theorem callCheck_h (f : CheckFunc) (w : World) (now : Time) :
    (callCheck f w now).2.h = { w.h with counters := (callCheck f w now).2.h.counters } := by
  cases f with
  | defaultCheckHystrix =>
    simp only [callCheck, defaultCheckHystrix_eq]
    exact GetCounter_h w now
  | defaultCheckAlive => rfl
  | user name answer => rfl

theorem callCheck_trace (f : CheckFunc) (w : World) (now : Time) :
    (callCheck f w now).2.trace = w.trace := by
  cases f with
  | defaultCheckHystrix =>
    simp only [callCheck, defaultCheckHystrix_eq]
    exact GetCounter_trace w now
  | defaultCheckAlive => rfl
  | user name answer => rfl

theorem TriggerAlive_h (w : World) (now : Time) :
    (TriggerAlive w now).h = { w.h with status := status_Alive, lastChangeStatusTime := now } := by
  unfold TriggerAlive
  simp only
  split <;> rfl

theorem TriggerHystrix_h (w : World) (now : Time) :
    (TriggerHystrix w now).h
      = { w.h with status := status_Hystrix, lastChangeStatusTime := now } := by
  unfold TriggerHystrix
  simp only
  split <;> rfl

theorem TriggerAlive_heap (w : World) (now : Time) : (TriggerAlive w now).heap = w.heap := by
  unfold TriggerAlive
  simp only
  split <;> rfl

theorem TriggerHystrix_heap (w : World) (now : Time) : (TriggerHystrix w now).heap = w.heap := by
  unfold TriggerHystrix
  simp only
  split <;> rfl

theorem TriggerAlive_trace (w : World) (now : Time) :
    (TriggerAlive w now).trace = w.trace ++
      (match w.h.onTriggerAlive with
       | some f => [Event.onTriggerAlive f status_Alive]
       | none => []) := by
  unfold TriggerAlive
  simp only
  cases h : w.h.onTriggerAlive <;> simp [World.emit]

theorem TriggerHystrix_trace (w : World) (now : Time) :
    (TriggerHystrix w now).trace = w.trace ++
      (match w.h.onTriggerHystrix with
       | some f => [Event.onTriggerHystrix f status_Hystrix]
       | none => []) := by
  unfold TriggerHystrix
  simp only
  cases h : w.h.onTriggerHystrix <;> simp [World.emit]

theorem doCheck_Hystrix_eq (w : World) (now : Time) (ca ch : CheckFunc)
    (hA : w.h.checkAliveFunc = some ca) (hH : w.h.checkHystrixFunc = some ch)
    (hs : w.h.status = status_Hystrix) :
    doCheck w now =
      if (callCheck ca w now).1 = true then
        World.emit
          { (GetCounter (TriggerAlive
              ((callCheck ca w now).2.emit (Event.checkAliveFunc true)) now) now).2 with
            heap := (GetCounter (TriggerAlive
              ((callCheck ca w now).2.emit (Event.checkAliveFunc true)) now) now).2.heap.Clear
                (GetCounter (TriggerAlive
                  ((callCheck ca w now).2.emit (Event.checkAliveFunc true)) now) now).1 }
          (Event.afterFunc (secondsDuration w.h.checkHystrixInterval) Task.doCheck)
      else
        ((callCheck ca w now).2.emit (Event.checkAliveFunc false)).emit
          (Event.afterFunc (secondsDuration w.h.checkAliveInterval) Task.doCheck) := by
  have hI : IsHystrix w = true := by simp [IsHystrix, hs]
  have h1 := callCheck_h ca w now
  unfold doCheck
  simp only [hA, hH, hI, if_true]
  rcases hc : callCheck ca w now with ⟨r, w1⟩
  rw [hc] at h1
  simp only at h1
  have hi1 : w1.h.checkHystrixInterval = w.h.checkHystrixInterval := by rw [h1]
  have hi2 : w1.h.checkAliveInterval = w.h.checkAliveInterval := by rw [h1]
  cases r with
  | false => simp [World.emit, hi2]
  | true =>
    simp only [if_true]
    have h4 := GetCounter_h (TriggerAlive (w1.emit (Event.checkAliveFunc true)) now) now
    rcases hg : GetCounter (TriggerAlive (w1.emit (Event.checkAliveFunc true)) now) now
      with ⟨c, w4⟩
    rw [hg] at h4
    simp only at h4
    have hi4 : w4.h.checkHystrixInterval = w.h.checkHystrixInterval := by
      rw [h4, TriggerAlive_h]
      exact hi1
    simp [World.emit, hi4]

theorem doCheck_Alive_eq (w : World) (now : Time) (ca ch : CheckFunc)
    (hA : w.h.checkAliveFunc = some ca) (hH : w.h.checkHystrixFunc = some ch)
    (hs : w.h.status ≠ status_Hystrix) :
    doCheck w now =
      if (callCheck ch w now).1 = true then
        (TriggerHystrix ((callCheck ch w now).2.emit (Event.checkHystrixFunc true)) now).emit
          (Event.afterFunc (secondsDuration w.h.checkAliveInterval) Task.doCheck)
      else
        ((callCheck ch w now).2.emit (Event.checkHystrixFunc false)).emit
          (Event.afterFunc (secondsDuration w.h.checkHystrixInterval) Task.doCheck) := by
  have hI : IsHystrix w = false := by simp [IsHystrix, hs]
  have h1 := callCheck_h ch w now
  unfold doCheck
  simp only [hA, hH, hI]
  rcases hc : callCheck ch w now with ⟨r, w1⟩
  rw [hc] at h1
  simp only at h1
  have hi1 : w1.h.checkHystrixInterval = w.h.checkHystrixInterval := by rw [h1]
  have hi2 : w1.h.checkAliveInterval = w.h.checkAliveInterval := by rw [h1]
  cases r with
  | false => simp [World.emit, hi1]
  | true =>
    have hi3 : (TriggerHystrix (w1.emit (Event.checkHystrixFunc true)) now).h.checkAliveInterval
        = w.h.checkAliveInterval := by
      rw [TriggerHystrix_h]
      exact hi2
    simp [hi3]

theorem doCheck_recovers (w : World) (now : Time) (ca ch : CheckFunc)
    (hA : w.h.checkAliveFunc = some ca) (hH : w.h.checkHystrixFunc = some ch)
    (hs : w.h.status = status_Hystrix) (hr : (callCheck ca w now).1 = true) :
    (doCheck w now).h.status = status_Alive
    ∧ (doCheck w now).h.lastChangeStatusTime = now
    ∧ currentCount (doCheck w now) now = 0
    ∧ (doCheck w now).trace = w.trace ++ [Event.checkAliveFunc true]
        ++ (match w.h.onTriggerAlive with
            | some f => [Event.onTriggerAlive f status_Alive]
            | none => [])
        ++ [Event.afterFunc (secondsDuration w.h.checkHystrixInterval) Task.doCheck] := by
  have hE := doCheck_Hystrix_eq w now ca ch hA hH hs
  have h1 := callCheck_h ca w now
  have t1 := callCheck_trace ca w now
  rw [if_pos hr] at hE
  rw [hE]
  refine ⟨?_, ?_, ?_, ?_⟩
  · show (GetCounter (TriggerAlive
      ((callCheck ca w now).2.emit (Event.checkAliveFunc true)) now) now).2.h.status = _
    rw [GetCounter_h, TriggerAlive_h]
  · show (GetCounter (TriggerAlive
      ((callCheck ca w now).2.emit (Event.checkAliveFunc true)) now) now).2.h.lastChangeStatusTime
        = _
    rw [GetCounter_h, TriggerAlive_h]
  · rw [currentCount_emit]
    exact currentCount_Clear _ now
  · show (GetCounter (TriggerAlive
      ((callCheck ca w now).2.emit (Event.checkAliveFunc true)) now) now).2.trace ++ _ = _
    rw [GetCounter_trace, TriggerAlive_trace]
    have e1 : ((callCheck ca w now).2.emit (Event.checkAliveFunc true)).trace
        = w.trace ++ [Event.checkAliveFunc true] := by
      show (callCheck ca w now).2.trace ++ _ = _
      rw [t1]
    have e2 : ((callCheck ca w now).2.emit (Event.checkAliveFunc true)).h.onTriggerAlive
        = w.h.onTriggerAlive := by
      show (callCheck ca w now).2.h.onTriggerAlive = _
      rw [h1]
    rw [e1, e2]

theorem secondsDuration_eq (n : Int) (h1 : -9223372036 ≤ n) (h2 : n ≤ 9223372036) :
    secondsDuration n = n * Second := by
  unfold secondsDuration wrap64 Second
  simp only [Duration]
  omega

/-- C3, as the spec states it, fails: on the tripped sample breaker, after
`SetCheckInterval(10, 18446744074)`, a tick ten seconds after the trip, whose
recovery predicate answers false, hands `time.AfterFunc` the delay
`time.Duration(18446744074) * time.Second`, which wraps around in 64 bits to
290448384 nanoseconds, not 18446744074 seconds. -/
theorem tick_delay_wraps_in_Hystrix :
    (SetCheckInterval trippedBreaker 10 18446744074).h.status = status_Hystrix
    ∧ (SetCheckInterval trippedBreaker 10 18446744074).h.checkAliveInterval = 18446744074
    ∧ (callCheck CheckFunc.defaultCheckAlive (SetCheckInterval trippedBreaker 10 18446744074)
        (10 * Second)).1 = false
    ∧ (doCheck (SetCheckInterval trippedBreaker 10 18446744074) (10 * Second)).trace
        = [Event.checkAliveFunc false, Event.afterFunc 290448384 Task.doCheck]
    ∧ (290448384 : Duration) ≠ 18446744074 * Second := by
  decide

/-- C3, amended: one evaluation tick on a breaker in Hystrix status with both
predicates set, the intervals being of at most 9223372036 seconds in absolute value.
If the recovery predicate answers true, the status becomes Alive, the counter of the
current bucket reads 0 and the tick ends by scheduling `doCheck` after
`checkHystrixInterval` seconds; if it answers false, status and
`lastChangeStatusTime` keep their values, the breaker and the counters are as the
predicate left them (untouched, for every predicate other than the breaker's own
trip predicate), and the tick ends by scheduling `doCheck` after
`checkAliveInterval` seconds. In both cases the trace of the tick holds the call of
the recovery predicate and no call of the trip predicate. The delay handed to
`time.AfterFunc` is `time.Duration(interval) * time.Second`, which is the interval
in seconds for every interval of at most 9223372036 seconds in absolute value. -/
theorem doCheck_in_Hystrix (w : World) (now : Time) (ca ch : CheckFunc)
    (hA : w.h.checkAliveFunc = some ca) (hH : w.h.checkHystrixFunc = some ch)
    (hs : w.h.status = status_Hystrix) :
    ((callCheck ca w now).1 = true →
        (doCheck w now).h.status = status_Alive
        ∧ currentCount (doCheck w now) now = 0
        ∧ (doCheck w now).trace = w.trace ++ [Event.checkAliveFunc true]
            ++ (match w.h.onTriggerAlive with
                | some f => [Event.onTriggerAlive f status_Alive]
                | none => [])
            ++ [Event.afterFunc (secondsDuration w.h.checkHystrixInterval) Task.doCheck])
    ∧ ((callCheck ca w now).1 = false →
        (doCheck w now).h.status = w.h.status
        ∧ (doCheck w now).h.lastChangeStatusTime = w.h.lastChangeStatusTime
        ∧ (doCheck w now).h = (callCheck ca w now).2.h
        ∧ (doCheck w now).heap = (callCheck ca w now).2.heap
        ∧ (ca ≠ CheckFunc.defaultCheckHystrix →
            (doCheck w now).h = w.h ∧ (doCheck w now).heap = w.heap)
        ∧ (doCheck w now).trace = w.trace ++ [Event.checkAliveFunc false,
            Event.afterFunc (secondsDuration w.h.checkAliveInterval) Task.doCheck])
    ∧ (-9223372036 ≤ w.h.checkHystrixInterval → w.h.checkHystrixInterval ≤ 9223372036 →
        secondsDuration w.h.checkHystrixInterval = w.h.checkHystrixInterval * Second)
    ∧ (-9223372036 ≤ w.h.checkAliveInterval → w.h.checkAliveInterval ≤ 9223372036 →
        secondsDuration w.h.checkAliveInterval = w.h.checkAliveInterval * Second) := by
  have hE := doCheck_Hystrix_eq w now ca ch hA hH hs
  have h1 := callCheck_h ca w now
  have t1 := callCheck_trace ca w now
  refine ⟨?_, ?_, secondsDuration_eq _, secondsDuration_eq _⟩
  · intro hr
    have hR := doCheck_recovers w now ca ch hA hH hs hr
    exact ⟨hR.1, hR.2.2.1, hR.2.2.2⟩
  · intro hr
    have hr2 : ¬ (callCheck ca w now).1 = true := by simp [hr]
    rw [if_neg hr2] at hE
    rw [hE]
    refine ⟨?_, ?_, rfl, rfl, ?_, ?_⟩
    · show (callCheck ca w now).2.h.status = _
      rw [h1]
    · show (callCheck ca w now).2.h.lastChangeStatusTime = _
      rw [h1]
    · intro hca
      have e := callCheck_self ca w now hca
      constructor
      · show (callCheck ca w now).2.h = _
        rw [e]
      · show (callCheck ca w now).2.heap = _
        rw [e]
    · show ((callCheck ca w now).2.trace ++ _) ++ _ = _
      rw [t1]
      simp

/-- Witness of C3 (amended): the tripped sample breaker, ticked 301 seconds after it tripped. -/
theorem doCheck_in_Hystrix_witness :
    trippedBreaker.h.checkAliveFunc = some CheckFunc.defaultCheckAlive
    ∧ trippedBreaker.h.checkHystrixFunc = some CheckFunc.defaultCheckHystrix
    ∧ trippedBreaker.h.status = status_Hystrix
    ∧ (callCheck CheckFunc.defaultCheckAlive trippedBreaker (301 * Second)).1 = true
    ∧ (doCheck trippedBreaker (301 * Second)).h.status = status_Alive
    ∧ currentCount (doCheck trippedBreaker (301 * Second)) (301 * Second) = 0 :=
  ⟨rfl, rfl, rfl, by decide,
    ((doCheck_in_Hystrix trippedBreaker (301 * Second) CheckFunc.defaultCheckAlive
      CheckFunc.defaultCheckHystrix rfl rfl rfl).1 (by decide)).1,
    ((doCheck_in_Hystrix trippedBreaker (301 * Second) CheckFunc.defaultCheckAlive
      CheckFunc.defaultCheckHystrix rfl rfl rfl).1 (by decide)).2.1⟩

/-- C4, as the spec states it, fails: on a fresh breaker, after
`SetCheckInterval(18446744074, 60)`, a tick whose trip predicate answers false hands
`time.AfterFunc` the delay `time.Duration(18446744074) * time.Second`, which wraps
around in 64 bits to 290448384 nanoseconds, not 18446744074 seconds. -/
theorem tick_delay_wraps_in_Alive :
    (SetCheckInterval (NewHystrix none none 0) 18446744074 60).h.status = status_Alive
    ∧ (SetCheckInterval (NewHystrix none none 0) 18446744074 60).h.checkHystrixInterval
        = 18446744074
    ∧ (callCheck CheckFunc.defaultCheckHystrix
        (SetCheckInterval (NewHystrix none none 0) 18446744074 60) (10 * Second)).1 = false
    ∧ (doCheck (SetCheckInterval (NewHystrix none none 0) 18446744074 60) (10 * Second)).trace
        = [Event.checkHystrixFunc false, Event.afterFunc 290448384 Task.doCheck]
    ∧ (290448384 : Duration) ≠ 18446744074 * Second := by
  decide

/-- C4, amended: one evaluation tick on a breaker in Alive status with both
predicates set, the intervals being of at most 9223372036 seconds in absolute value.
If the trip predicate answers true, the status becomes Hystrix,
`lastChangeStatusTime` becomes the current time and the tick ends by scheduling
`doCheck` after `checkAliveInterval` seconds; if it answers false, status and
`lastChangeStatusTime` keep their values and the tick ends by scheduling `doCheck`
after `checkHystrixInterval` seconds. In both cases the trace of the tick holds no
call of the recovery predicate, every counter allocated before the tick keeps its
count, and every bucket keeps its counter. The delay handed to `time.AfterFunc` is
`time.Duration(interval) * time.Second`, which is the interval in seconds for every
interval of at most 9223372036 seconds in absolute value. -/
theorem doCheck_in_Alive (w : World) (now : Time) (ca ch : CheckFunc)
    (hA : w.h.checkAliveFunc = some ca) (hH : w.h.checkHystrixFunc = some ch)
    (hs : w.h.status = status_Alive) :
    ((callCheck ch w now).1 = true →
        (doCheck w now).h.status = status_Hystrix
        ∧ (doCheck w now).h.lastChangeStatusTime = now
        ∧ (doCheck w now).trace = w.trace ++ [Event.checkHystrixFunc true]
            ++ (match w.h.onTriggerHystrix with
                | some f => [Event.onTriggerHystrix f status_Hystrix]
                | none => [])
            ++ [Event.afterFunc (secondsDuration w.h.checkAliveInterval) Task.doCheck])
    ∧ ((callCheck ch w now).1 = false →
        (doCheck w now).h.status = w.h.status
        ∧ (doCheck w now).h.lastChangeStatusTime = w.h.lastChangeStatusTime
        ∧ (doCheck w now).trace = w.trace ++ [Event.checkHystrixFunc false,
            Event.afterFunc (secondsDuration w.h.checkHystrixInterval) Task.doCheck])
    ∧ (∀ c, c < w.heap.next → (doCheck w now).heap.Count c = w.heap.Count c)
    ∧ (∀ k c, w.h.counters.Load k = some c → (doCheck w now).h.counters.Load k = some c)
    ∧ (-9223372036 ≤ w.h.checkHystrixInterval → w.h.checkHystrixInterval ≤ 9223372036 →
        secondsDuration w.h.checkHystrixInterval = w.h.checkHystrixInterval * Second)
    ∧ (-9223372036 ≤ w.h.checkAliveInterval → w.h.checkAliveInterval ≤ 9223372036 →
        secondsDuration w.h.checkAliveInterval = w.h.checkAliveInterval * Second) := by
  have hs2 : w.h.status ≠ status_Hystrix := by rw [hs]; decide
  have hE := doCheck_Alive_eq w now ca ch hA hH hs2
  have h1 := callCheck_h ch w now
  have t1 := callCheck_trace ch w now
  obtain ⟨hp, m, e, hcount, hload⟩ := callCheck_world ch w now
  refine ⟨?_, ?_, ?_, ?_, secondsDuration_eq _, secondsDuration_eq _⟩
  · intro hr
    rw [if_pos hr] at hE
    rw [hE]
    refine ⟨?_, ?_, ?_⟩
    · show (TriggerHystrix _ now).h.status = _
      rw [TriggerHystrix_h]
    · show (TriggerHystrix _ now).h.lastChangeStatusTime = _
      rw [TriggerHystrix_h]
    · show (TriggerHystrix _ now).trace ++ _ = _
      rw [TriggerHystrix_trace]
      have e1 : ((callCheck ch w now).2.emit (Event.checkHystrixFunc true)).trace
          = w.trace ++ [Event.checkHystrixFunc true] := by
        show (callCheck ch w now).2.trace ++ _ = _
        rw [t1]
      have e2 : ((callCheck ch w now).2.emit (Event.checkHystrixFunc true)).h.onTriggerHystrix
          = w.h.onTriggerHystrix := by
        show (callCheck ch w now).2.h.onTriggerHystrix = _
        rw [h1]
      rw [e1, e2]
  · intro hr
    have hr2 : ¬ (callCheck ch w now).1 = true := by simp [hr]
    rw [if_neg hr2] at hE
    rw [hE]
    refine ⟨?_, ?_, ?_⟩
    · show (callCheck ch w now).2.h.status = _
      rw [h1]
    · show (callCheck ch w now).2.h.lastChangeStatusTime = _
      rw [h1]
    · show ((callCheck ch w now).2.trace ++ _) ++ _ = _
      rw [t1]
      simp
  · intro c hc
    have hh : (doCheck w now).heap = (callCheck ch w now).2.heap := by
      rw [hE]
      split
      · exact TriggerHystrix_heap _ now
      · rfl
    rw [hh, e]
    exact hcount c hc
  · intro k c hk
    have hh : (doCheck w now).h.counters = (callCheck ch w now).2.h.counters := by
      rw [hE]
      split
      · show (TriggerHystrix _ now).h.counters = _
        rw [TriggerHystrix_h]
        rfl
      · rfl
    rw [hh, e]
    exact hload k c hk

/-- Witness of C4 (amended): the sample breaker with threshold 5 after six reported failures. -/
theorem doCheck_in_Alive_witness :
    (failingBreaker 6).h.checkAliveFunc = some CheckFunc.defaultCheckAlive
    ∧ (failingBreaker 6).h.checkHystrixFunc = some CheckFunc.defaultCheckHystrix
    ∧ (failingBreaker 6).h.status = status_Alive
    ∧ (callCheck CheckFunc.defaultCheckHystrix (failingBreaker 6) 0).1 = true
    ∧ (doCheck (failingBreaker 6) 0).h.status = status_Hystrix
    ∧ (doCheck (failingBreaker 6) 0).h.lastChangeStatusTime = 0 :=
  ⟨rfl, rfl, rfl, by decide,
    ((doCheck_in_Alive (failingBreaker 6) 0 CheckFunc.defaultCheckAlive
      CheckFunc.defaultCheckHystrix rfl rfl rfl).1 (by decide)).1,
    ((doCheck_in_Alive (failingBreaker 6) 0 CheckFunc.defaultCheckAlive
      CheckFunc.defaultCheckHystrix rfl rfl rfl).1 (by decide)).2.1⟩

theorem doCheck_of_nil (w : World) (now : Time)
    (h : w.h.checkAliveFunc = none ∨ w.h.checkHystrixFunc = none) : doCheck w now = w := by
  unfold doCheck
  rcases h with h | h
  · simp only [h]
  · cases hA : w.h.checkAliveFunc <;> simp only [h]

theorem doCheck_status_time (w : World) (now : Time) :
    ((doCheck w now).h.status = w.h.status
      ∧ (doCheck w now).h.lastChangeStatusTime = w.h.lastChangeStatusTime)
    ∨ ((doCheck w now).h.status ≠ w.h.status
      ∧ (doCheck w now).h.lastChangeStatusTime = now) := by
  cases hA : w.h.checkAliveFunc with
  | none => rw [doCheck_of_nil w now (Or.inl hA)]; exact Or.inl ⟨rfl, rfl⟩
  | some ca =>
    cases hH : w.h.checkHystrixFunc with
    | none => rw [doCheck_of_nil w now (Or.inr hH)]; exact Or.inl ⟨rfl, rfl⟩
    | some ch =>
      by_cases hs : w.h.status = status_Hystrix
      · rw [doCheck_Hystrix_eq w now ca ch hA hH hs]
        have h1 := callCheck_h ca w now
        split
        · right
          constructor
          · show (GetCounter (TriggerAlive _ now) now).2.h.status ≠ _
            rw [GetCounter_h, TriggerAlive_h, hs]
            exact (by decide : status_Alive ≠ status_Hystrix)
          · show (GetCounter (TriggerAlive _ now) now).2.h.lastChangeStatusTime = _
            rw [GetCounter_h, TriggerAlive_h]
        · left
          constructor
          · show (callCheck ca w now).2.h.status = _
            rw [h1]
          · show (callCheck ca w now).2.h.lastChangeStatusTime = _
            rw [h1]
      · rw [doCheck_Alive_eq w now ca ch hA hH hs]
        have h1 := callCheck_h ch w now
        split
        · right
          constructor
          · show (TriggerHystrix _ now).h.status ≠ _
            rw [TriggerHystrix_h]
            exact fun e => hs e.symm
          · show (TriggerHystrix _ now).h.lastChangeStatusTime = _
            rw [TriggerHystrix_h]
        · left
          constructor
          · show (callCheck ch w now).2.h.status = _
            rw [h1]
          · show (callCheck ch w now).2.h.lastChangeStatusTime = _
            rw [h1]

/-! ## Status and its time stamp -/

/-- C5, as the spec states it, fails: on a breaker that is already in Hystrix
status, `TriggerHystrix` called seven nanoseconds after the last transition leaves
the status as it is and moves `lastChangeStatusTime`. -/
theorem lastChangeStatusTime_restamped_without_change :
    ¬ ((step trippedBreaker 7 Op.TriggerHystrix).h.lastChangeStatusTime
          ≠ trippedBreaker.h.lastChangeStatusTime
        ↔ (step trippedBreaker 7 Op.TriggerHystrix).h.status ≠ trippedBreaker.h.status) := by
  decide

/-- C5, amended: for every operation and every tick applied to any breaker state, a
changed status comes with `lastChangeStatusTime` set to the current time, and a
changed `lastChangeStatusTime` is the current time and comes either with a changed
status or from a direct call of `TriggerHystrix` or `TriggerAlive`, which stamp the
time on every call. -/
theorem lastChangeStatusTime_stamped (w : World) (now : Time) (op : Op) :
    ((step w now op).h.status ≠ w.h.status → (step w now op).h.lastChangeStatusTime = now)
    ∧ ((step w now op).h.lastChangeStatusTime ≠ w.h.lastChangeStatusTime →
        (step w now op).h.lastChangeStatusTime = now
        ∧ ((step w now op).h.status ≠ w.h.status
            ∨ op = Op.TriggerHystrix ∨ op = Op.TriggerAlive)) := by
  have same : ∀ v : World, v.h.status = w.h.status →
      v.h.lastChangeStatusTime = w.h.lastChangeStatusTime →
      (v.h.status ≠ w.h.status → v.h.lastChangeStatusTime = now)
      ∧ (v.h.lastChangeStatusTime ≠ w.h.lastChangeStatusTime →
          v.h.lastChangeStatusTime = now
          ∧ (v.h.status ≠ w.h.status ∨ op = Op.TriggerHystrix ∨ op = Op.TriggerAlive)) :=
    fun v h1 h2 => ⟨fun h => absurd h1 h, fun h => absurd h2 h⟩
  cases op with
  | Do => exact same _ rfl rfl
  | RegisterAliveCheck check => exact same _ rfl rfl
  | RegisterHystrixCheck check => exact same _ rfl rfl
  | RegisterOnTriggerHystrix f => exact same _ rfl rfl
  | RegisterOnTriggerAlive f => exact same _ rfl rfl
  | GetID => exact same _ rfl rfl
  | IsHystrix => exact same _ rfl rfl
  | TriggerHystrix =>
    have e : (step w now Op.TriggerHystrix).h.lastChangeStatusTime = now := by
      show (TriggerHystrix w now).h.lastChangeStatusTime = now
      rw [TriggerHystrix_h]
    exact ⟨fun _ => e, fun _ => ⟨e, Or.inr (Or.inl rfl)⟩⟩
  | TriggerAlive =>
    have e : (step w now Op.TriggerAlive).h.lastChangeStatusTime = now := by
      show (TriggerAlive w now).h.lastChangeStatusTime = now
      rw [TriggerAlive_h]
    exact ⟨fun _ => e, fun _ => ⟨e, Or.inr (Or.inr rfl)⟩⟩
  | GetCounter =>
    refine same _ ?_ ?_
    · show (GetCounter w now).2.h.status = _
      rw [GetCounter_h]
    · show (GetCounter w now).2.h.lastChangeStatusTime = _
      rw [GetCounter_h]
  | GetExtendedData => exact same _ rfl rfl
  | SetID id => exact same _ rfl rfl
  | SetCheckInterval a b => exact same _ rfl rfl
  | SetMaxFailedNumber n => exact same _ rfl rfl
  | SetExtendedData d => exact same _ rfl rfl
  | counterInc c => exact same _ rfl rfl
  | counterClear c => exact same _ rfl rfl
  | doCheck =>
    rcases doCheck_status_time w now with ⟨h1, h2⟩ | ⟨h1, h2⟩
    · exact same _ h1 h2
    · exact ⟨fun _ => h2, fun _ => ⟨h2, Or.inl h1⟩⟩
  | doCleanHistoryCounter => exact same _ rfl rfl

/-- Witness of C5 (amended): `TriggerAlive` on the tripped sample breaker changes the
status and stamps the time of the call. -/
theorem lastChangeStatusTime_stamped_witness :
    (step trippedBreaker 7 Op.TriggerAlive).h.status ≠ trippedBreaker.h.status
    ∧ (step trippedBreaker 7 Op.TriggerAlive).h.lastChangeStatusTime = 7 :=
  ⟨by decide, (lastChangeStatusTime_stamped trippedBreaker 7 Op.TriggerAlive).1 (by decide)⟩

/-! ## The triggers -/

/-- C6, as the spec states it, fails: on a tripped breaker whose current bucket
counts seven failures, `TriggerAlive` leaves that bucket counting seven. -/
theorem TriggerAlive_keeps_count :
    IsHystrix (reportFailures trippedBreaker 0 7) = true
    ∧ IsHystrix (TriggerAlive (reportFailures trippedBreaker 0 7) 0) = false
    ∧ currentCount (TriggerAlive (reportFailures trippedBreaker 0 7) 0) 0 = 7 := by
  decide

/-- C6, amended: the Hystrix to Alive transition performed by an evaluation tick
whose recovery predicate answers true, whatever the count of the current bucket
was, sets the status to Alive, stamps `lastChangeStatusTime`, invokes
`onTriggerAlive` if one is registered, and leaves the counter of the current bucket
reading 0; a direct call of `TriggerAlive` sets the status, stamps the time and
invokes the callback in the same way and leaves the counter objects and the counter
store as they were. -/
theorem recovery_by_tick_clears (w : World) (now : Time) (ca ch : CheckFunc)
    (hA : w.h.checkAliveFunc = some ca) (hH : w.h.checkHystrixFunc = some ch)
    (hs : w.h.status = status_Hystrix) (hr : (callCheck ca w now).1 = true) :
    ((doCheck w now).h.status = status_Alive
      ∧ (doCheck w now).h.lastChangeStatusTime = now
      ∧ (∀ f, w.h.onTriggerAlive = some f →
          Event.onTriggerAlive f status_Alive ∈ (doCheck w now).trace)
      ∧ currentCount (doCheck w now) now = 0)
    ∧ ((TriggerAlive w now).h.status = status_Alive
      ∧ (TriggerAlive w now).h.lastChangeStatusTime = now
      ∧ (TriggerAlive w now).trace = w.trace ++
          (match w.h.onTriggerAlive with
           | some f => [Event.onTriggerAlive f status_Alive]
           | none => [])
      ∧ (TriggerAlive w now).heap = w.heap
      ∧ (TriggerAlive w now).h.counters = w.h.counters
      ∧ currentCount (TriggerAlive w now) now = currentCount w now) := by
  have h3 := doCheck_recovers w now ca ch hA hH hs hr
  refine ⟨⟨h3.1, h3.2.1, ?_, h3.2.2.1⟩, ?_, ?_, TriggerAlive_trace w now,
    TriggerAlive_heap w now, ?_, ?_⟩
  · intro f hf
    rw [h3.2.2.2, hf]
    simp
  · rw [TriggerAlive_h]
  · rw [TriggerAlive_h]
  · rw [TriggerAlive_h]
  · have e1 : (TriggerAlive w now).h.counters = w.h.counters := by rw [TriggerAlive_h]
    exact currentCount_congr _ w now e1 (TriggerAlive_heap w now)

/-- Witness of C6 (amended): the tripped sample breaker with seven failures counted,
ticked 301 seconds after it tripped. -/
theorem recovery_by_tick_clears_witness :
    (reportFailures trippedBreaker (301 * Second) 7).h.status = status_Hystrix
    ∧ currentCount (reportFailures trippedBreaker (301 * Second) 7) (301 * Second) = 7
    ∧ currentCount (doCheck (reportFailures trippedBreaker (301 * Second) 7) (301 * Second))
        (301 * Second) = 0 :=
  ⟨rfl, by decide,
    (recovery_by_tick_clears (reportFailures trippedBreaker (301 * Second) 7) (301 * Second)
      CheckFunc.defaultCheckAlive CheckFunc.defaultCheckHystrix rfl rfl rfl (by decide)).1.2.2.2⟩

/-- C7: triggers are commands. For every breaker state, also one already in Hystrix
status, each call of `TriggerHystrix` invokes the registered `onTriggerHystrix`
exactly once, with a handle that reads Hystrix, and leaves `IsHystrix()` true, so
two calls in a row invoke it twice; each call of `TriggerAlive` invokes the
registered `onTriggerAlive` exactly once and leaves `IsHystrix()` false; with no
callback registered the status is set and nothing is invoked. -/
theorem Trigger_invokes_callback (w : World) (now now2 : Time) :
    (TriggerHystrix w now).trace = w.trace ++
        (match w.h.onTriggerHystrix with
         | some f => [Event.onTriggerHystrix f status_Hystrix]
         | none => [])
    ∧ IsHystrix (TriggerHystrix w now) = true
    ∧ (TriggerHystrix (TriggerHystrix w now) now2).trace = w.trace ++
        (match w.h.onTriggerHystrix with
         | some f => [Event.onTriggerHystrix f status_Hystrix,
                      Event.onTriggerHystrix f status_Hystrix]
         | none => [])
    ∧ (TriggerAlive w now).trace = w.trace ++
        (match w.h.onTriggerAlive with
         | some f => [Event.onTriggerAlive f status_Alive]
         | none => [])
    ∧ IsHystrix (TriggerAlive w now) = false
    ∧ (TriggerAlive (TriggerAlive w now) now2).trace = w.trace ++
        (match w.h.onTriggerAlive with
         | some f => [Event.onTriggerAlive f status_Alive, Event.onTriggerAlive f status_Alive]
         | none => []) := by
  refine ⟨TriggerHystrix_trace w now, ?_, ?_, TriggerAlive_trace w now, ?_, ?_⟩
  · unfold IsHystrix
    rw [TriggerHystrix_h]
    exact (by decide : (status_Hystrix == status_Hystrix) = true)
  · rw [TriggerHystrix_trace, TriggerHystrix_trace, TriggerHystrix_h]
    cases h : w.h.onTriggerHystrix <;> simp
  · unfold IsHystrix
    rw [TriggerAlive_h]
    exact (by decide : (status_Alive == status_Hystrix) = false)
  · rw [TriggerAlive_trace, TriggerAlive_trace, TriggerAlive_h]
    cases h : w.h.onTriggerAlive <;> simp

/-! ## The cleanup pass -/

theorem needRemoveKey_eq (m : SyncMap) (now : Time) :
    needRemoveKey m now = (m.filter fun e => !retained now e.1).map Prod.fst := by
  have step : ∀ (l : SyncMap) (acc : List String),
      l.foldl (fun acc e =>
        match Parse e.1 with
        | none => acc ++ [e.1]
        | some t =>
          if timeSub now t > DefaultReserveMinutes * Minute then acc ++ [e.1] else acc) acc
        = acc ++ (l.filter fun e => !retained now e.1).map Prod.fst := by
    intro l
    induction l with
    | nil => intro acc; simp
    | cons e l ih =>
      intro acc
      rw [List.foldl_cons, ih]
      cases hp : Parse e.1 with
      | none =>
        have hret : retained now e.1 = false := by simp [retained, hp]
        simp [hp, hret, List.filter_cons]
      | some tk =>
        have hg := timeSub_gt_iff now tk (DefaultReserveMinutes * Minute) (by decide) (by decide)
        have e30 : DefaultReserveMinutes * Minute = 30 * Minute := by decide
        by_cases hc : timeSub now tk > DefaultReserveMinutes * Minute
        · have hr : ¬ (now - tk ≤ 30 * Minute) := by
            have := hg.mp hc
            rw [e30] at this
            exact not_le.mpr this
          have hret : retained now e.1 = false := by simp [retained, hp, hr]
          simp [hp, hret, hc, List.filter_cons]
        · have hr : now - tk ≤ 30 * Minute := by
            have := fun x => hc (hg.mpr x)
            rw [e30] at this
            exact not_lt.mp this
          have hret : retained now e.1 = true := by simp [retained, hp, hr]
          simp [hp, hret, hc, List.filter_cons]
  unfold needRemoveKey
  rw [step m []]
  simp

theorem foldl_Delete_eq (keys : List String) (m : SyncMap) :
    keys.foldl SyncMap.Delete m = m.filter fun e => decide (e.1 ∉ keys) := by
  induction keys generalizing m with
  | nil => simp
  | cons k ks ih =>
    rw [List.foldl_cons, ih]
    unfold SyncMap.Delete
    rw [List.filter_filter]
    apply List.filter_congr
    intro e _
    by_cases h1 : e.1 = k <;> by_cases h2 : e.1 ∈ ks <;> simp [h1, h2]

theorem Load_filter (m : SyncMap) (p : String → Bool) (key : String) :
    SyncMap.Load (m.filter fun e => p e.1) key = if p key then m.Load key else none := by
  unfold SyncMap.Load
  rw [List.find?_filter]
  by_cases hp : p key = true
  · have hf : (fun (a : String × Nat) => decide (p a.1 = true ∧ (a.1 == key) = true))
        = (fun e => e.1 == key) := by
      funext a
      by_cases h : a.1 = key
      · simp [h, hp]
      · simp [h]
    rw [hf, if_pos hp]
  · have hf : (fun (a : String × Nat) => decide (p a.1 = true ∧ (a.1 == key) = true))
        = (fun _ => false) := by
      funext a
      by_cases h : a.1 = key
      · simp [h, hp]
      · simp [h]
    rw [hf, if_neg hp]
    simp

theorem doCleanHistoryCounter_counters (w : World) (t : Time) :
    (doCleanHistoryCounter w t).h.counters
      = w.h.counters.filter fun e => retained (parsedNow t) e.1 := by
  show (needRemoveKey w.h.counters (parsedNow t)).foldl SyncMap.Delete w.h.counters = _
  rw [foldl_Delete_eq, needRemoveKey_eq]
  apply List.filter_congr
  intro e he
  by_cases hr : retained (parsedNow t) e.1 = true
  · have : e.1 ∉ (List.filter (fun e => !retained (parsedNow t) e.1) w.h.counters).map Prod.fst := by
      intro hin
      obtain ⟨e2, h2, h3⟩ := List.mem_map.mp hin
      have h4 := (List.mem_filter.mp h2).2
      rw [h3, hr] at h4
      exact Bool.noConfusion h4
    simp [this, hr]
  · have : e.1 ∈ (List.filter (fun e => !retained (parsedNow t) e.1) w.h.counters).map Prod.fst := by
      apply List.mem_map.mpr
      refine ⟨e, List.mem_filter.mpr ⟨he, ?_⟩, rfl⟩
      simp [hr]
    simp [this, hr]

/-- C8: for every counter store and every clock reading, after one cleanup pass the
store holds exactly the entries of the prior store whose key parses in the minute
layout and whose age, the pass's `now` minus the time of the key, is at most 30
minutes; each keeps its counter and no counter object is changed; a key that fails
to parse or is older than 30 minutes is absent; a key aged exactly 30 minutes is
retained. The pass's `now` is the clock reading rendered in the minute layout and
parsed back, which is the clock reading truncated to the minute for every reading
in the years 0 to 9999, those the layout can render. The pass ends by scheduling
itself after 300 seconds. -/
theorem doCleanHistoryCounter_retains (w : World) (t : Time) (key : String) (tk : Time) :
    (doCleanHistoryCounter w t).h.counters
        = w.h.counters.filter (fun e => retained (parsedNow t) e.1)
    ∧ (doCleanHistoryCounter w t).heap = w.heap
    ∧ (doCleanHistoryCounter w t).h.counters.Load key
        = (if retained (parsedNow t) key then w.h.counters.Load key else none)
    ∧ (Parse key = none → (doCleanHistoryCounter w t).h.counters.Load key = none)
    ∧ (Parse key = some tk → parsedNow t - tk > 30 * Minute →
        (doCleanHistoryCounter w t).h.counters.Load key = none)
    ∧ (Parse key = some tk → parsedNow t - tk ≤ 30 * Minute →
        (doCleanHistoryCounter w t).h.counters.Load key = w.h.counters.Load key)
    ∧ (dateOf 0 1 1 0 0 ≤ t → t < dateOf 10000 1 1 0 0 → parsedNow t = t - t % Minute)
    ∧ (doCleanHistoryCounter w t).trace = w.trace ++
        [Event.afterFunc (300 * Second) Task.doCleanHistoryCounter] := by
  have hl : (doCleanHistoryCounter w t).h.counters.Load key
      = (if retained (parsedNow t) key then w.h.counters.Load key else none) := by
    rw [doCleanHistoryCounter_counters]
    exact Load_filter w.h.counters (retained (parsedNow t)) key
  refine ⟨doCleanHistoryCounter_counters w t, rfl, hl, ?_, ?_, ?_, parsedNow_eq t, ?_⟩
  · intro hp
    rw [hl]
    simp [retained, hp]
  · intro hp hage
    rw [hl]
    have : ¬ (parsedNow t - tk ≤ 30 * Minute) := not_le.mpr hage
    simp [retained, hp, this]
  · intro hp hage
    rw [hl]
    simp [retained, hp, hage]
  · show w.trace ++ [Event.afterFunc (secondsDuration DefaultCleanHistoryInterval)
      Task.doCleanHistoryCounter] = _
    have e : secondsDuration DefaultCleanHistoryInterval = 300 * Second := by decide
    rw [e]

/-- Witness of C8: the bucket created at time 0 is exactly 30 minutes old for a pass
run 30 minutes and 59 seconds later, and is retained. -/
theorem doCleanHistoryCounter_retains_witness :
    Parse "197001010000" = some 0
    ∧ parsedNow (30 * Minute + 59 * Second) - 0 ≤ 30 * Minute
    ∧ (doCleanHistoryCounter (GetCounter (NewHystrix none none 0) 0).2
          (30 * Minute + 59 * Second)).h.counters.Load "197001010000"
        = (GetCounter (NewHystrix none none 0) 0).2.h.counters.Load "197001010000" :=
  ⟨by decide, by decide,
    (doCleanHistoryCounter_retains (GetCounter (NewHystrix none none 0) 0).2
      (30 * Minute + 59 * Second) "197001010000" 0).2.2.2.2.2.1 (by decide) (by decide)⟩

/-! ## The counter of the current bucket -/

theorem reportFailures_of_some (w : World) (now : Time) (c : Nat)
    (h : w.h.counters.Load (getLastedTimeKey now) = some c) (n : Nat) :
    (reportFailures w now n).h = w.h
    ∧ (reportFailures w now n).heap.Count c = w.heap.Count c + n := by
  induction n with
  | zero => simp [reportFailures]
  | succ n ih =>
    have hl : (reportFailures w now n).h.counters.Load (getLastedTimeKey now) = some c := by
      rw [ih.1]; exact h
    simp only [reportFailures, reportFailure]
    rw [GetCounter_of_some _ now c hl]
    refine ⟨ih.1, ?_⟩
    simp only [Heap.Count, Heap.Inc, if_true]
    have := ih.2
    simp only [Heap.Count] at this
    rw [this]
    push_cast
    ring

theorem doCheck_Load_some (w : World) (now : Time) (k : String) (c : Nat)
    (hk : w.h.counters.Load k = some c) : (doCheck w now).h.counters.Load k = some c := by
  cases hA : w.h.checkAliveFunc with
  | none => rw [doCheck_of_nil w now (Or.inl hA)]; exact hk
  | some ca =>
    cases hH : w.h.checkHystrixFunc with
    | none => rw [doCheck_of_nil w now (Or.inr hH)]; exact hk
    | some ch =>
      by_cases hs : w.h.status = status_Hystrix
      · rw [doCheck_Hystrix_eq w now ca ch hA hH hs]
        obtain ⟨hp, m, e, -, hload⟩ := callCheck_world ca w now
        split
        · obtain ⟨hp2, m2, e2, -, hload2⟩ := GetCounter_world
            (TriggerAlive ((callCheck ca w now).2.emit (Event.checkAliveFunc true)) now) now
          show (GetCounter (TriggerAlive _ now) now).2.h.counters.Load k = some c
          rw [e2]
          apply hload2
          rw [TriggerAlive_h]
          show (callCheck ca w now).2.h.counters.Load k = some c
          rw [e]
          exact hload k c hk
        · show (callCheck ca w now).2.h.counters.Load k = some c
          rw [e]
          exact hload k c hk
      · rw [doCheck_Alive_eq w now ca ch hA hH hs]
        obtain ⟨hp, m, e, -, hload⟩ := callCheck_world ch w now
        split
        · show (TriggerHystrix _ now).h.counters.Load k = some c
          rw [TriggerHystrix_h]
          show (callCheck ch w now).2.h.counters.Load k = some c
          rw [e]
          exact hload k c hk
        · show (callCheck ch w now).2.h.counters.Load k = some c
          rw [e]
          exact hload k c hk

theorem step_Load_some (w : World) (now : Time) (op : Op) (k : String) (c : Nat)
    (hop : op ≠ Op.doCleanHistoryCounter) (hk : w.h.counters.Load k = some c) :
    (step w now op).h.counters.Load k = some c := by
  cases op with
  | Do => exact hk
  | RegisterAliveCheck check => exact hk
  | RegisterHystrixCheck check => exact hk
  | RegisterOnTriggerHystrix f => exact hk
  | RegisterOnTriggerAlive f => exact hk
  | GetID => exact hk
  | IsHystrix => exact hk
  | TriggerHystrix =>
    show (TriggerHystrix w now).h.counters.Load k = some c
    rw [TriggerHystrix_h]
    exact hk
  | TriggerAlive =>
    show (TriggerAlive w now).h.counters.Load k = some c
    rw [TriggerAlive_h]
    exact hk
  | GetCounter =>
    obtain ⟨hp, m, e, -, hload⟩ := GetCounter_world w now
    show (GetCounter w now).2.h.counters.Load k = some c
    rw [e]
    exact hload k c hk
  | GetExtendedData => exact hk
  | SetID id => exact hk
  | SetCheckInterval a b => exact hk
  | SetMaxFailedNumber n => exact hk
  | SetExtendedData d => exact hk
  | counterInc c => exact hk
  | counterClear c => exact hk
  | doCheck => exact doCheck_Load_some w now k c hk
  | doCleanHistoryCounter => exact absurd rfl hop

theorem run_Load_some (ops : List (Time × Op)) (w : World) (k : String) (c : Nat)
    (hops : ∀ x ∈ ops, x.2 ≠ Op.doCleanHistoryCounter) (hk : w.h.counters.Load k = some c) :
    (run w ops).h.counters.Load k = some c := by
  induction ops generalizing w with
  | nil => exact hk
  | cons x rest ih =>
    obtain ⟨now, op⟩ := x
    simp only [run]
    apply ih
    · intro y hy
      exact hops y (List.mem_cons_of_mem _ hy)
    · exact step_Load_some w now op k c (hops (now, op) (List.mem_cons_self _ _)) hk

/-- C9: `GetCounter` is get-or-create on the key of the current time. If the store
holds a counter under that key, `GetCounter` returns that counter and leaves the
world as it is. Otherwise it returns a newly allocated counter that reads 0, stores
it under that key, and leaves every other entry, every other counter and every other
field of the breaker as they were. A second `GetCounter`, at any time with the same
key, returns the counter the first one returned and changes nothing, also after `n`
increments made in between, which it finds accumulated on that counter, and returns
that same counter after any operations and ticks other than a cleanup pass. -/
theorem GetCounter_get_or_create (w : World) (now now2 : Time) (c : Nat) (n : Nat)
    (ops : List (Time × Op)) :
    (w.h.counters.Load (getLastedTimeKey now) = some c → GetCounter w now = (c, w))
    ∧ (w.h.counters.Load (getLastedTimeKey now) = none →
        (GetCounter w now).1 = w.heap.next
        ∧ (GetCounter w now).2.heap.next = w.heap.next + 1
        ∧ (GetCounter w now).2.heap.Count (GetCounter w now).1 = 0
        ∧ (GetCounter w now).2.h.counters.Load (getLastedTimeKey now)
            = some (GetCounter w now).1
        ∧ (∀ k, k ≠ getLastedTimeKey now →
            (GetCounter w now).2.h.counters.Load k = w.h.counters.Load k)
        ∧ (∀ d, d ≠ (GetCounter w now).1 →
            (GetCounter w now).2.heap.Count d = w.heap.Count d)
        ∧ (GetCounter w now).2.h
            = { w.h with counters := (GetCounter w now).2.h.counters }
        ∧ (GetCounter w now).2.trace = w.trace)
    ∧ (getLastedTimeKey now2 = getLastedTimeKey now →
        GetCounter (GetCounter w now).2 now2 = GetCounter w now
        ∧ GetCounter (reportFailures (GetCounter w now).2 now n) now2
            = ((GetCounter w now).1, reportFailures (GetCounter w now).2 now n)
        ∧ (reportFailures (GetCounter w now).2 now n).heap.Count (GetCounter w now).1
            = (GetCounter w now).2.heap.Count (GetCounter w now).1 + n
        ∧ ((∀ x ∈ ops, x.2 ≠ Op.doCleanHistoryCounter) →
            (GetCounter (run (GetCounter w now).2 ops) now2).1 = (GetCounter w now).1)) := by
  refine ⟨GetCounter_of_some w now c, ?_, ?_⟩
  · intro hn
    rw [GetCounter_of_none w now hn]
    refine ⟨rfl, rfl, ?_, Load_Store_self _ _ _, ?_, ?_, rfl, rfl⟩
    · simp [NewCounter, Heap.Count]
    · intro k hk
      exact Load_Store_ne _ _ _ _ hk
    · intro d hd
      have hd2 : d ≠ w.heap.next := hd
      simp [NewCounter, Heap.Count, hd2]
  · intro hk
    have hl := GetCounter_Load w now
    have hr := reportFailures_of_some (GetCounter w now).2 now (GetCounter w now).1 hl n
    refine ⟨GetCounter_again w now now2 hk, ?_, hr.2, ?_⟩
    · apply GetCounter_of_some
      rw [hr.1, hk]
      exact hl
    · intro hops
      have h2 := run_Load_some ops (GetCounter w now).2 _ _ hops hl
      rw [← hk] at h2
      rw [GetCounter_of_some _ now2 _ h2]

/-- Witness of C9: on a fresh breaker no bucket exists at time 0; the counter created
there is found again 59 seconds later, in the same minute. -/
theorem GetCounter_get_or_create_witness :
    (NewHystrix none none 0).h.counters.Load (getLastedTimeKey 0) = none
    ∧ getLastedTimeKey (59 * Second) = getLastedTimeKey 0
    ∧ (GetCounter (NewHystrix none none 0) 0).1 = (NewHystrix none none 0).heap.next
    ∧ GetCounter (GetCounter (NewHystrix none none 0) 0).2 (59 * Second)
        = GetCounter (NewHystrix none none 0) 0 :=
  ⟨by decide, by decide,
    ((GetCounter_get_or_create (NewHystrix none none 0) 0 (59 * Second) 0 0 []).2.1
      (by decide)).1,
    ((GetCounter_get_or_create (NewHystrix none none 0) 0 (59 * Second) 0 0 []).2.2
      (by decide)).1⟩

/-! ## The key of the current bucket -/

/-- C10, as the spec states it, fails: three minutes after midnight the key that
`GetCounter` uses is the key of the minute before, and the entry it creates on a
fresh breaker is stored under that earlier key, none under the key of the current
minute. -/
theorem getLastedTimeKey_previous_minute :
    Format (3 * Minute) = "197001010003"
    ∧ getLastedTimeKey (3 * Minute) = "197001010002"
    ∧ (GetCounter (NewHystrix none none 0) (3 * Minute)).2.h.counters.Load "197001010002"
        = some 0
    ∧ (GetCounter (NewHystrix none none 0) (3 * Minute)).2.h.counters.Load "197001010003"
        = none := by
  decide

/-- C10, amended: for every time `t`, the key under which `GetCounter` reads or
creates a counter is the minute-resolution key of `t` itself or of the minute before
`t`; `GetCounter` stores or finds the counter it returns under that key and leaves
the entry of every other key as it was. In the years the layout can render, the key
parses back to the start of the minute of `t` or to the start of the minute before. -/
theorem getLastedTimeKey_this_or_previous (w : World) (t : Time) :
    (getLastedTimeKey t = Format t ∨ getLastedTimeKey t = Format (t - Minute))
    ∧ (GetCounter w t).2.h.counters.Load (getLastedTimeKey t) = some (GetCounter w t).1
    ∧ (∀ k, k ≠ Format t → k ≠ Format (t - Minute) →
        (GetCounter w t).2.h.counters.Load k = w.h.counters.Load k)
    ∧ (dateOf 0 1 1 0 0 + Minute ≤ t → t < dateOf 10000 1 1 0 0 →
        (Parse (getLastedTimeKey t) = some (t - t % Minute)
          ∨ Parse (getLastedTimeKey t) = some (t - t % Minute - Minute))) := by
  have hkey : getLastedTimeKey t = Format t ∨ getLastedTimeKey t = Format (t - Minute) := by
    unfold getLastedTimeKey
    simp only
    split
    · right
      have e : timeAdd t (-1 * Minute) = t - Minute := by
        unfold timeAdd
        ring
      rw [e]
    · left
      rfl
  refine ⟨hkey, GetCounter_Load w t, ?_, ?_⟩
  · intro k h1 h2
    have hne : k ≠ getLastedTimeKey t := by
      rcases hkey with e | e <;> rw [e] <;> assumption
    cases hl : w.h.counters.Load (getLastedTimeKey t) with
    | none =>
      rw [GetCounter_of_none w t hl]
      exact Load_Store_ne _ _ _ _ hne
    | some c => rw [GetCounter_of_some w t c hl]
  · intro h0 h1
    have hm : (0 : Int) < Minute := by decide
    rcases hkey with e | e
    · left
      rw [e]
      exact Parse_Format t (by simp only [Time] at *; omega) h1
    · right
      rw [e, Parse_Format (t - Minute) (by simp only [Time] at *; omega)
        (by simp only [Time] at *; omega)]
      congr 1
      simp only [Minute, Second, Time, Duration]
      omega

/-- Witness of C10 (amended): three minutes after midnight of 1970-01-01 the key
parses back to the start of the minute before. -/
theorem getLastedTimeKey_this_or_previous_witness :
    dateOf 0 1 1 0 0 + Minute ≤ 3 * Minute
    ∧ 3 * Minute < dateOf 10000 1 1 0 0
    ∧ (Parse (getLastedTimeKey (3 * Minute)) = some (3 * Minute - 3 * Minute % Minute)
        ∨ Parse (getLastedTimeKey (3 * Minute))
            = some (3 * Minute - 3 * Minute % Minute - Minute)) :=
  ⟨by decide, by decide,
    (getLastedTimeKey_this_or_previous (NewHystrix none none 0) (3 * Minute)).2.2.2
      (by decide) (by decide)⟩

/-! ## The key of the current bucket, minute by minute -/

theorem minuteOf_range (t : Time) : 0 ≤ minuteOf t ∧ minuteOf t ≤ 59 := by
  unfold minuteOf
  simp only [Minute, Second, Time, Duration]
  omega

theorem getLastedTimeKey_eq (t : Time) :
    (minuteOf t ≤ 1 → getLastedTimeKey t = Format t)
    ∧ (2 ≤ minuteOf t → getLastedTimeKey t = Format (t - Minute)) := by
  have hr := minuteOf_range t
  have e : timeAdd t (-1 * Minute) = t - Minute := by
    unfold timeAdd
    ring
  unfold getLastedTimeKey
  simp only [e]
  constructor
  · intro h
    have h2 : minuteOf t / 2 = 0 := by omega
    simp [h2]
  · intro h
    have h2 : ¬ (minuteOf t / 2 = 0) := by omega
    simp [h2]

theorem digitChar_inj (a b : Int) (ha : 0 ≤ a ∧ a ≤ 9) (hb : 0 ≤ b ∧ b ≤ 9)
    (h : digitChar a = digitChar b) : a = b := by
  have h1 := (digitChar_isDigit a ha.1 ha.2).2
  have h2 := (digitChar_isDigit b hb.1 hb.2).2
  rw [← h1, ← h2, h]

theorem Format_previous_ne (t : Time) (h : 1 ≤ minuteOf t) : Format (t - Minute) ≠ Format t := by
  have hr := minuteOf_range t
  have hd : dayOf (t - Minute) = dayOf t := by
    unfold dayOf
    unfold minuteOf at h hr
    simp only [Minute, Second, Time, Duration] at *
    omega
  have hh : hourOf (t - Minute) = hourOf t := by
    unfold hourOf
    unfold minuteOf at h hr
    simp only [Minute, Second, Time, Duration] at *
    omega
  have hm : minuteOf (t - Minute) = minuteOf t - 1 := by
    unfold minuteOf at h hr ⊢
    simp only [Minute, Second, Time, Duration] at *
    omega
  intro heq
  unfold Format at heq
  simp only [hd, hh, hm] at heq
  have hl := congrArg String.data heq
  simp only at hl
  have h2 := List.append_cancel_left hl
  rw [appendInt_two (minuteOf t - 1) (by omega) (by omega),
    appendInt_two (minuteOf t) (by omega) (by omega)] at h2
  have h3 : digitChar ((minuteOf t - 1) % 10) = digitChar (minuteOf t % 10) := by
    have := List.cons.inj h2
    exact List.head_eq_of_cons_eq this.2
  have h4 := digitChar_inj _ _ (by omega) (by omega) h3
  omega

/-- C11: for every time `t` the minute of the hour lies between 0 and 59; the test
`minute / 2 != 0` of `getLastedTimeKey` is false exactly for the minutes 0 and 1;
`getLastedTimeKey` returns the key of the minute of `t` itself exactly when the
minute is 0 or 1, and for every minute from 2 to 59 it returns the key of the minute
before `t`, a different key, which in the years the layout can render parses back to
the start of the minute before. -/
theorem getLastedTimeKey_own_minute_iff (t : Time) :
    (0 ≤ minuteOf t ∧ minuteOf t ≤ 59)
    ∧ ((minuteOf t / 2 != 0) = false ↔ (minuteOf t = 0 ∨ minuteOf t = 1))
    ∧ (getLastedTimeKey t = Format t ↔ (minuteOf t = 0 ∨ minuteOf t = 1))
    ∧ (2 ≤ minuteOf t →
        getLastedTimeKey t = Format (t - Minute) ∧ getLastedTimeKey t ≠ Format t)
    ∧ (2 ≤ minuteOf t → dateOf 0 1 1 0 0 + Minute ≤ t → t < dateOf 10000 1 1 0 0 →
        Parse (getLastedTimeKey t) = some (t - t % Minute - Minute)) := by
  have hr := minuteOf_range t
  have hk := getLastedTimeKey_eq t
  refine ⟨hr, ?_, ?_, ?_, ?_⟩
  · constructor
    · intro h
      have h2 : minuteOf t / 2 = 0 := by simpa using h
      omega
    · intro h
      have h2 : minuteOf t / 2 = 0 := by omega
      simp [h2]
  · constructor
    · intro h
      by_contra hn
      have h2 : 2 ≤ minuteOf t := by omega
      rw [hk.2 h2] at h
      exact Format_previous_ne t (by omega) h
    · intro h
      exact hk.1 (by omega)
  · intro h2
    refine ⟨hk.2 h2, ?_⟩
    rw [hk.2 h2]
    exact Format_previous_ne t (by omega)
  · intro h2 h0 h1
    rw [hk.2 h2, Parse_Format (t - Minute) (by simp only [Time] at *; omega)
      (by have hm : (0 : Int) < Minute := by decide
          simp only [Time] at *; omega)]
    congr 1
    simp only [Minute, Second, Time, Duration]
    omega

/-- Witness of C11: at 00:02 of 1970-01-01 the key is that of 00:01. -/
theorem getLastedTimeKey_own_minute_iff_witness :
    2 ≤ minuteOf (2 * Minute)
    ∧ getLastedTimeKey (2 * Minute) = Format (2 * Minute - Minute)
    ∧ getLastedTimeKey (2 * Minute) ≠ Format (2 * Minute) :=
  ⟨by decide, (getLastedTimeKey_own_minute_iff (2 * Minute)).2.2.2.1 (by decide)⟩

/-! ## Construction -/

/-- C12: the breaker returned by `NewHystrix(checkAlive, checkHysrix)`, for every
pair of arguments, nil ones included, is Alive (`IsHystrix()` is false), stamped
with the time of construction, has `checkHystrixInterval` 10, `checkAliveInterval`
60, `maxFailedNumber` 100, an empty counter store, no callbacks, and both predicates
set: each argument is kept when it is not nil and replaced by the breaker's own
`defaultCheckAlive`, respectively `defaultCheckHystrix`, when it is nil. -/
theorem NewHystrix_initial (checkAlive checkHysrix : Option CheckFunc) (now : Time) :
    IsHystrix (NewHystrix checkAlive checkHysrix now) = false
    ∧ (NewHystrix checkAlive checkHysrix now).h.status = status_Alive
    ∧ (NewHystrix checkAlive checkHysrix now).h.lastChangeStatusTime = now
    ∧ (NewHystrix checkAlive checkHysrix now).h.checkHystrixInterval = 10
    ∧ (NewHystrix checkAlive checkHysrix now).h.checkAliveInterval = 60
    ∧ (NewHystrix checkAlive checkHysrix now).h.maxFailedNumber = 100
    ∧ (NewHystrix checkAlive checkHysrix now).h.counters = []
    ∧ (NewHystrix checkAlive checkHysrix now).h.onTriggerAlive = none
    ∧ (NewHystrix checkAlive checkHysrix now).h.onTriggerHystrix = none
    ∧ (NewHystrix checkAlive checkHysrix now).h.checkAliveFunc
        = some (checkAlive.getD CheckFunc.defaultCheckAlive)
    ∧ (NewHystrix checkAlive checkHysrix now).h.checkHystrixFunc
        = some (checkHysrix.getD CheckFunc.defaultCheckHystrix)
    ∧ (NewHystrix checkAlive checkHysrix now).trace = [] := by
  cases checkAlive <;> cases checkHysrix <;>
    exact ⟨rfl, rfl, rfl, rfl, rfl, rfl, rfl, rfl, rfl, rfl, rfl, rfl⟩

/-! ## What an operation can write -/

theorem doCheck_frame (w : World) (now : Time) :
    ∃ s t m, (doCheck w now).h
      = { w.h with status := s, lastChangeStatusTime := t, counters := m } := by
  cases hA : w.h.checkAliveFunc with
  | none => rw [doCheck_of_nil w now (Or.inl hA)]; exact ⟨_, _, _, rfl⟩
  | some ca =>
    cases hH : w.h.checkHystrixFunc with
    | none => rw [doCheck_of_nil w now (Or.inr hH)]; exact ⟨_, _, _, rfl⟩
    | some ch =>
      by_cases hs : w.h.status = status_Hystrix
      · rw [doCheck_Hystrix_eq w now ca ch hA hH hs]
        have h1 := callCheck_h ca w now
        split
        · refine ⟨status_Alive, now, (GetCounter (TriggerAlive
            ((callCheck ca w now).2.emit (Event.checkAliveFunc true)) now) now).2.h.counters, ?_⟩
          show (GetCounter (TriggerAlive _ now) now).2.h = _
          rw [GetCounter_h, TriggerAlive_h]
          show _ = _
          have e : ((callCheck ca w now).2.emit (Event.checkAliveFunc true)).h
              = (callCheck ca w now).2.h := rfl
          rw [e, h1]
        · refine ⟨w.h.status, w.h.lastChangeStatusTime, (callCheck ca w now).2.h.counters, ?_⟩
          show (callCheck ca w now).2.h = _
          rw [h1]
      · rw [doCheck_Alive_eq w now ca ch hA hH hs]
        have h1 := callCheck_h ch w now
        split
        · refine ⟨status_Hystrix, now, (callCheck ch w now).2.h.counters, ?_⟩
          show (TriggerHystrix _ now).h = _
          rw [TriggerHystrix_h]
          have e : ((callCheck ch w now).2.emit (Event.checkHystrixFunc true)).h
              = (callCheck ch w now).2.h := rfl
          rw [e, h1]
        · refine ⟨w.h.status, w.h.lastChangeStatusTime, (callCheck ch w now).2.h.counters, ?_⟩
          show (callCheck ch w now).2.h = _
          rw [h1]

theorem step_frame (w : World) (now : Time) (op : Op) (hop : writesConfig op = false) :
    ∃ s t m, (step w now op).h
      = { w.h with status := s, lastChangeStatusTime := t, counters := m } := by
  cases op with
  | Do => exact ⟨_, _, _, rfl⟩
  | RegisterAliveCheck check => exact Bool.noConfusion hop
  | RegisterHystrixCheck check => exact Bool.noConfusion hop
  | RegisterOnTriggerHystrix f => exact Bool.noConfusion hop
  | RegisterOnTriggerAlive f => exact Bool.noConfusion hop
  | GetID => exact ⟨_, _, _, rfl⟩
  | IsHystrix => exact ⟨_, _, _, rfl⟩
  | TriggerHystrix => exact ⟨status_Hystrix, now, w.h.counters, TriggerHystrix_h w now⟩
  | TriggerAlive => exact ⟨status_Alive, now, w.h.counters, TriggerAlive_h w now⟩
  | GetCounter => exact ⟨w.h.status, w.h.lastChangeStatusTime, _, GetCounter_h w now⟩
  | GetExtendedData => exact ⟨_, _, _, rfl⟩
  | SetID id => exact Bool.noConfusion hop
  | SetCheckInterval a b => exact Bool.noConfusion hop
  | SetMaxFailedNumber n => exact Bool.noConfusion hop
  | SetExtendedData d => exact Bool.noConfusion hop
  | counterInc c => exact ⟨_, _, _, rfl⟩
  | counterClear c => exact ⟨_, _, _, rfl⟩
  | doCheck => exact doCheck_frame w now
  | doCleanHistoryCounter => exact ⟨_, _, _, rfl⟩

/-! ## The tick and its successor -/

theorem ticksScheduled_append (a b : List Event) :
    ticksScheduled (a ++ b) = ticksScheduled a + ticksScheduled b := by
  simp [ticksScheduled, List.filter_append]

theorem doCheck_trace (w : World) (now : Time) (ca ch : CheckFunc)
    (hA : w.h.checkAliveFunc = some ca) (hH : w.h.checkHystrixFunc = some ch) :
    (doCheck w now).trace = w.trace ++
      (if w.h.status = status_Hystrix then
        (if (callCheck ca w now).1 = true then
          [Event.checkAliveFunc true]
            ++ (match w.h.onTriggerAlive with
                | some f => [Event.onTriggerAlive f status_Alive]
                | none => [])
            ++ [Event.afterFunc (secondsDuration w.h.checkHystrixInterval) Task.doCheck]
        else
          [Event.checkAliveFunc false,
            Event.afterFunc (secondsDuration w.h.checkAliveInterval) Task.doCheck])
      else
        (if (callCheck ch w now).1 = true then
          [Event.checkHystrixFunc true]
            ++ (match w.h.onTriggerHystrix with
                | some f => [Event.onTriggerHystrix f status_Hystrix]
                | none => [])
            ++ [Event.afterFunc (secondsDuration w.h.checkAliveInterval) Task.doCheck]
        else
          [Event.checkHystrixFunc false,
            Event.afterFunc (secondsDuration w.h.checkHystrixInterval) Task.doCheck])) := by
  by_cases hs : w.h.status = status_Hystrix
  · rw [if_pos hs]
    by_cases hr : (callCheck ca w now).1 = true
    · rw [if_pos hr, (doCheck_recovers w now ca ch hA hH hs hr).2.2.2]
      simp
    · rw [if_neg hr, doCheck_Hystrix_eq w now ca ch hA hH hs, if_neg hr]
      show ((callCheck ca w now).2.trace ++ _) ++ _ = _
      rw [callCheck_trace]
      simp
  · rw [if_neg hs, doCheck_Alive_eq w now ca ch hA hH hs]
    by_cases hr : (callCheck ch w now).1 = true
    · rw [if_pos hr, if_pos hr]
      show (TriggerHystrix _ now).trace ++ _ = _
      rw [TriggerHystrix_trace]
      have e1 : ((callCheck ch w now).2.emit (Event.checkHystrixFunc true)).trace
          = w.trace ++ [Event.checkHystrixFunc true] := by
        show (callCheck ch w now).2.trace ++ _ = _
        rw [callCheck_trace]
      have e2 : ((callCheck ch w now).2.emit (Event.checkHystrixFunc true)).h.onTriggerHystrix
          = w.h.onTriggerHystrix := by
        show (callCheck ch w now).2.h.onTriggerHystrix = _
        rw [callCheck_h]
      rw [e1, e2]
      simp
    · rw [if_neg hr, if_neg hr]
      show ((callCheck ch w now).2.trace ++ _) ++ _ = _
      rw [callCheck_trace]
      simp

theorem doCheck_schedules_one (w : World) (now : Time) (ca ch : CheckFunc)
    (hA : w.h.checkAliveFunc = some ca) (hH : w.h.checkHystrixFunc = some ch) :
    ticksScheduled (doCheck w now).trace = ticksScheduled w.trace + 1
    ∧ ∃ pre d, (doCheck w now).trace = pre ++ [Event.afterFunc d Task.doCheck] := by
  rw [doCheck_trace w now ca ch hA hH]
  by_cases hs : w.h.status = status_Hystrix
  · rw [if_pos hs]
    by_cases hr : (callCheck ca w now).1 = true
    · rw [if_pos hr]
      constructor
      · cases w.h.onTriggerAlive <;> simp [ticksScheduled, List.filter_append]
      · exact ⟨_, secondsDuration w.h.checkHystrixInterval, (List.append_assoc _ _ _).symm⟩
    · rw [if_neg hr]
      constructor
      · simp [ticksScheduled, List.filter_append]
      · exact ⟨w.trace ++ [Event.checkAliveFunc false],
          secondsDuration w.h.checkAliveInterval, by simp⟩
  · rw [if_neg hs]
    by_cases hr : (callCheck ch w now).1 = true
    · rw [if_pos hr]
      constructor
      · cases w.h.onTriggerHystrix <;> simp [ticksScheduled, List.filter_append]
      · exact ⟨_, secondsDuration w.h.checkAliveInterval, (List.append_assoc _ _ _).symm⟩
    · rw [if_neg hr]
      constructor
      · simp [ticksScheduled, List.filter_append]
      · exact ⟨w.trace ++ [Event.checkHystrixFunc false],
          secondsDuration w.h.checkHystrixInterval, by simp⟩

theorem step_keeps_predicates (w : World) (now : Time) (op : Op) (hop : keepsPredicates op)
    (hA : w.h.checkAliveFunc.isSome = true) (hH : w.h.checkHystrixFunc.isSome = true) :
    (step w now op).h.checkAliveFunc.isSome = true
    ∧ (step w now op).h.checkHystrixFunc.isSome = true := by
  by_cases hc : writesConfig op = false
  · obtain ⟨s, t, m, e⟩ := step_frame w now op hc
    rw [e]
    exact ⟨hA, hH⟩
  · cases op with
    | RegisterAliveCheck check =>
      cases check with
      | none => exact False.elim hop
      | some f => exact ⟨rfl, hH⟩
    | RegisterHystrixCheck check =>
      cases check with
      | none => exact False.elim hop
      | some f => exact ⟨hA, rfl⟩
    | RegisterOnTriggerHystrix f => exact ⟨hA, hH⟩
    | RegisterOnTriggerAlive f => exact ⟨hA, hH⟩
    | SetID id => exact ⟨hA, hH⟩
    | SetCheckInterval a b => exact ⟨hA, hH⟩
    | SetMaxFailedNumber n => exact ⟨hA, hH⟩
    | SetExtendedData d => exact ⟨hA, hH⟩
    | _ => exact absurd rfl hc

theorem run_keeps_predicates (ops : List (Time × Op)) (w : World)
    (hops : ∀ x ∈ ops, keepsPredicates x.2)
    (hA : w.h.checkAliveFunc.isSome = true) (hH : w.h.checkHystrixFunc.isSome = true) :
    (run w ops).h.checkAliveFunc.isSome = true
    ∧ (run w ops).h.checkHystrixFunc.isSome = true := by
  induction ops generalizing w with
  | nil => exact ⟨hA, hH⟩
  | cons x rest ih =>
    obtain ⟨now, op⟩ := x
    simp only [run]
    have h1 := step_keeps_predicates w now op (hops (now, op) (List.mem_cons_self _ _)) hA hH
    exact ih (step w now op) (fun y hy => hops y (List.mem_cons_of_mem _ hy)) h1.1 h1.2

theorem NewHystrix_predicates (checkAlive checkHysrix : Option CheckFunc) (t0 : Time) :
    (NewHystrix checkAlive checkHysrix t0).h.checkAliveFunc.isSome = true
    ∧ (NewHystrix checkAlive checkHysrix t0).h.checkHystrixFunc.isSome = true := by
  cases checkAlive <;> cases checkHysrix <;> exact ⟨rfl, rfl⟩

/-- C13, as the spec states it, fails: on a fresh breaker, after
`RegisterAliveCheck(nil)`, an evaluation tick ten seconds later records nothing, so
no next tick is scheduled. -/
theorem tick_after_unregister_schedules_nothing :
    (run (NewHystrix none none 0) [(0, Op.RegisterAliveCheck none)]).h.checkAliveFunc.isSome
        = false
    ∧ (run (NewHystrix none none 0)
        [(0, Op.RegisterAliveCheck none), (10 * Second, Op.doCheck)]).trace = []
    ∧ ticksScheduled (run (NewHystrix none none 0)
        [(0, Op.RegisterAliveCheck none), (10 * Second, Op.doCheck)]).trace = 0 := by
  decide

/-- C13, amended: for every breaker obtained from `NewHystrix` followed by any
sequence of public operations and ticks in which neither `RegisterAliveCheck` nor
`RegisterHystrixCheck` is called with nil, both predicates are set, and an
evaluation tick at any time schedules exactly one next tick, as the last thing it
does. -/
theorem tick_schedules_next (checkAlive checkHysrix : Option CheckFunc) (t0 now : Time)
    (ops : List (Time × Op)) (hops : ∀ x ∈ ops, keepsPredicates x.2) :
    (run (NewHystrix checkAlive checkHysrix t0) ops).h.checkAliveFunc.isSome = true
    ∧ (run (NewHystrix checkAlive checkHysrix t0) ops).h.checkHystrixFunc.isSome = true
    ∧ ticksScheduled (doCheck (run (NewHystrix checkAlive checkHysrix t0) ops) now).trace
        = ticksScheduled (run (NewHystrix checkAlive checkHysrix t0) ops).trace + 1
    ∧ ∃ pre d, (doCheck (run (NewHystrix checkAlive checkHysrix t0) ops) now).trace
        = pre ++ [Event.afterFunc d Task.doCheck] := by
  have h0 := NewHystrix_predicates checkAlive checkHysrix t0
  have h1 := run_keeps_predicates ops _ hops h0.1 h0.2
  obtain ⟨ca, hca⟩ := Option.isSome_iff_exists.mp h1.1
  obtain ⟨ch, hch⟩ := Option.isSome_iff_exists.mp h1.2
  exact ⟨h1.1, h1.2, doCheck_schedules_one _ now ca ch hca hch⟩

/-- Witness of C13 (amended): a fresh breaker that is configured, tripped by hand and
ticked; the next tick schedules its successor. -/
theorem tick_schedules_next_witness :
    (∀ x ∈ [((0 : Time), Op.SetCheckInterval 5 30), (1, Op.TriggerHystrix), (2, Op.doCheck)],
        keepsPredicates x.2)
    ∧ ticksScheduled (doCheck (run (NewHystrix none none 0)
        [(0, Op.SetCheckInterval 5 30), (1, Op.TriggerHystrix), (2, Op.doCheck)]) 3).trace
        = ticksScheduled (run (NewHystrix none none 0)
        [(0, Op.SetCheckInterval 5 30), (1, Op.TriggerHystrix), (2, Op.doCheck)]).trace + 1 :=
  ⟨by simp [keepsPredicates],
    (tick_schedules_next none none 0 3
      [(0, Op.SetCheckInterval 5 30), (1, Op.TriggerHystrix), (2, Op.doCheck)]
      (by simp [keepsPredicates])).2.2.1⟩

/-- C14: for every breaker state in which `checkAliveFunc` or `checkHystrixFunc` is
nil, an evaluation tick returns the world it found: no field and no counter is
changed, nothing is added to the trace, so no predicate and no callback is invoked
and no tick is scheduled. When both predicates are set, the tick schedules exactly
one further tick, as the last thing it does. -/
theorem doCheck_without_predicate (w : World) (now : Time) :
    ((w.h.checkAliveFunc = none ∨ w.h.checkHystrixFunc = none) →
        doCheck w now = w
        ∧ (doCheck w now).h = w.h ∧ (doCheck w now).heap = w.heap
        ∧ (doCheck w now).trace = w.trace
        ∧ ticksScheduled (doCheck w now).trace = ticksScheduled w.trace)
    ∧ (∀ ca ch, w.h.checkAliveFunc = some ca → w.h.checkHystrixFunc = some ch →
        ticksScheduled (doCheck w now).trace = ticksScheduled w.trace + 1
        ∧ ∃ pre d, (doCheck w now).trace = pre ++ [Event.afterFunc d Task.doCheck]) := by
  constructor
  · intro h
    have e := doCheck_of_nil w now h
    rw [e]
    exact ⟨rfl, rfl, rfl, rfl, rfl⟩
  · intro ca ch hA hH
    exact doCheck_schedules_one w now ca ch hA hH

/-- Witness of C14: the tripped sample breaker with its recovery predicate unset. -/
theorem doCheck_without_predicate_witness :
    ((RegisterAliveCheck trippedBreaker none).h.checkAliveFunc = none
      ∨ (RegisterAliveCheck trippedBreaker none).h.checkHystrixFunc = none)
    ∧ doCheck (RegisterAliveCheck trippedBreaker none) (301 * Second)
        = RegisterAliveCheck trippedBreaker none :=
  ⟨Or.inl rfl,
    ((doCheck_without_predicate (RegisterAliveCheck trippedBreaker none) (301 * Second)).1
      (Or.inl rfl)).1⟩

/-! ## The configuration fields -/

theorem NewHystrix_defaults (checkAlive checkHysrix : Option CheckFunc) (t0 : Time) :
    (NewHystrix checkAlive checkHysrix t0).h.checkHystrixInterval = 10
    ∧ (NewHystrix checkAlive checkHysrix t0).h.checkAliveInterval = 60
    ∧ (NewHystrix checkAlive checkHysrix t0).h.maxFailedNumber = 100 := by
  cases checkAlive <;> cases checkHysrix <;> exact ⟨rfl, rfl, rfl⟩

theorem step_positive (w : World) (now : Time) (op : Op) (hop : positiveArguments op)
    (h1 : 0 < w.h.checkHystrixInterval) (h2 : 0 < w.h.checkAliveInterval)
    (h3 : 0 < w.h.maxFailedNumber) :
    0 < (step w now op).h.checkHystrixInterval ∧ 0 < (step w now op).h.checkAliveInterval
    ∧ 0 < (step w now op).h.maxFailedNumber := by
  by_cases hc : writesConfig op = false
  · obtain ⟨s, t, m, e⟩ := step_frame w now op hc
    rw [e]
    exact ⟨h1, h2, h3⟩
  · cases op with
    | RegisterAliveCheck check => exact ⟨h1, h2, h3⟩
    | RegisterHystrixCheck check => exact ⟨h1, h2, h3⟩
    | RegisterOnTriggerHystrix f => exact ⟨h1, h2, h3⟩
    | RegisterOnTriggerAlive f => exact ⟨h1, h2, h3⟩
    | SetID id => exact ⟨h1, h2, h3⟩
    | SetCheckInterval a b => exact ⟨hop.1, hop.2, h3⟩
    | SetMaxFailedNumber n => exact ⟨h1, h2, hop⟩
    | SetExtendedData d => exact ⟨h1, h2, h3⟩
    | _ => exact absurd rfl hc

theorem run_positive (ops : List (Time × Op)) (w : World)
    (hops : ∀ x ∈ ops, positiveArguments x.2)
    (h1 : 0 < w.h.checkHystrixInterval) (h2 : 0 < w.h.checkAliveInterval)
    (h3 : 0 < w.h.maxFailedNumber) :
    0 < (run w ops).h.checkHystrixInterval ∧ 0 < (run w ops).h.checkAliveInterval
    ∧ 0 < (run w ops).h.maxFailedNumber := by
  induction ops generalizing w with
  | nil => exact ⟨h1, h2, h3⟩
  | cons x rest ih =>
    obtain ⟨now, op⟩ := x
    simp only [run]
    have h := step_positive w now op (hops (now, op) (List.mem_cons_self _ _)) h1 h2 h3
    exact ih (step w now op) (fun y hy => hops y (List.mem_cons_of_mem _ hy)) h.1 h.2.1 h.2.2

theorem secondsDuration_pos (n : Int) (h1 : 0 < n) (h2 : n ≤ 9223372036) :
    0 < secondsDuration n := by
  rw [secondsDuration_eq n (by omega) h2]
  unfold Second
  simp only [Duration]
  omega

/-- C15, as the spec states it, fails: on a fresh breaker `SetCheckInterval(0, -5)`
and `SetMaxFailedNumber(0)` are accepted as given, and the next tick schedules its
successor with a delay of zero. -/
theorem setters_accept_nonpositive :
    (run (NewHystrix none none 0)
        [(0, Op.SetCheckInterval 0 (-5)), (0, Op.SetMaxFailedNumber 0)]).h.checkHystrixInterval
        = 0
    ∧ (run (NewHystrix none none 0)
        [(0, Op.SetCheckInterval 0 (-5)), (0, Op.SetMaxFailedNumber 0)]).h.checkAliveInterval
        = -5
    ∧ (run (NewHystrix none none 0)
        [(0, Op.SetCheckInterval 0 (-5)), (0, Op.SetMaxFailedNumber 0)]).h.maxFailedNumber = 0
    ∧ (run (NewHystrix none none 0)
        [(0, Op.SetCheckInterval 0 (-5)), (0, Op.SetMaxFailedNumber 0), (1, Op.doCheck)]).trace
        = [Event.checkHystrixFunc false, Event.afterFunc 0 Task.doCheck] := by
  decide

/-- C15, amended: in every breaker state reached from `NewHystrix` through public
operations and ticks among which every `SetCheckInterval` has two positive
arguments and every `SetMaxFailedNumber` has a positive argument,
`checkHystrixInterval` and `checkAliveInterval` are positive numbers of seconds and
`maxFailedNumber` is a positive integer, and the delay of a scheduled re-evaluation
is strictly positive for every such interval of at most 9223372036 seconds. -/
theorem intervals_positive (checkAlive checkHysrix : Option CheckFunc) (t0 : Time)
    (ops : List (Time × Op)) (hops : ∀ x ∈ ops, positiveArguments x.2) :
    0 < (run (NewHystrix checkAlive checkHysrix t0) ops).h.checkHystrixInterval
    ∧ 0 < (run (NewHystrix checkAlive checkHysrix t0) ops).h.checkAliveInterval
    ∧ 0 < (run (NewHystrix checkAlive checkHysrix t0) ops).h.maxFailedNumber
    ∧ ((run (NewHystrix checkAlive checkHysrix t0) ops).h.checkHystrixInterval ≤ 9223372036 →
        0 < secondsDuration
          (run (NewHystrix checkAlive checkHysrix t0) ops).h.checkHystrixInterval)
    ∧ ((run (NewHystrix checkAlive checkHysrix t0) ops).h.checkAliveInterval ≤ 9223372036 →
        0 < secondsDuration
          (run (NewHystrix checkAlive checkHysrix t0) ops).h.checkAliveInterval) := by
  have h0 := NewHystrix_defaults checkAlive checkHysrix t0
  have h := run_positive ops (NewHystrix checkAlive checkHysrix t0) hops
    (by rw [h0.1]; decide) (by rw [h0.2.1]; decide) (by rw [h0.2.2]; decide)
  exact ⟨h.1, h.2.1, h.2.2, secondsDuration_pos _ h.1, secondsDuration_pos _ h.2.1⟩

/-- Witness of C15 (amended): a fresh breaker reconfigured with positive values. -/
theorem intervals_positive_witness :
    (∀ x ∈ [((0 : Time), Op.SetCheckInterval 5 30), (1, Op.SetMaxFailedNumber 3),
        (2, Op.doCheck)], positiveArguments x.2)
    ∧ 0 < (run (NewHystrix none none 0) [(0, Op.SetCheckInterval 5 30),
        (1, Op.SetMaxFailedNumber 3), (2, Op.doCheck)]).h.checkHystrixInterval :=
  ⟨by simp [positiveArguments],
    (intervals_positive none none 0
      [(0, Op.SetCheckInterval 5 30), (1, Op.SetMaxFailedNumber 3), (2, Op.doCheck)]
      (by simp [positiveArguments])).1⟩

theorem step_id (w : World) (now : Time) (op : Op) (hop : ∀ s, op ≠ Op.SetID s) :
    (step w now op).h.id = w.h.id := by
  by_cases hc : writesConfig op = false
  · obtain ⟨s, t, m, e⟩ := step_frame w now op hc
    rw [e]
  · cases op with
    | RegisterAliveCheck check => rfl
    | RegisterHystrixCheck check => rfl
    | RegisterOnTriggerHystrix f => rfl
    | RegisterOnTriggerAlive f => rfl
    | SetID id => exact absurd rfl (hop id)
    | SetCheckInterval a b => rfl
    | SetMaxFailedNumber n => rfl
    | SetExtendedData d => rfl
    | _ => exact absurd rfl hc

theorem step_extendedData (w : World) (now : Time) (op : Op)
    (hop : ∀ d, op ≠ Op.SetExtendedData d) :
    (step w now op).h.extendedData = w.h.extendedData := by
  by_cases hc : writesConfig op = false
  · obtain ⟨s, t, m, e⟩ := step_frame w now op hc
    rw [e]
  · cases op with
    | RegisterAliveCheck check => rfl
    | RegisterHystrixCheck check => rfl
    | RegisterOnTriggerHystrix f => rfl
    | RegisterOnTriggerAlive f => rfl
    | SetID id => rfl
    | SetCheckInterval a b => rfl
    | SetMaxFailedNumber n => rfl
    | SetExtendedData d => exact absurd rfl (hop d)
    | _ => exact absurd rfl hc

theorem run_id (ops : List (Time × Op)) (w : World) (hops : ∀ x ∈ ops, ∀ s, x.2 ≠ Op.SetID s) :
    (run w ops).h.id = w.h.id := by
  induction ops generalizing w with
  | nil => rfl
  | cons x rest ih =>
    obtain ⟨now, op⟩ := x
    simp only [run]
    rw [ih (step w now op) (fun y hy => hops y (List.mem_cons_of_mem _ hy))]
    exact step_id w now op (hops (now, op) (List.mem_cons_self _ _))

theorem run_extendedData (ops : List (Time × Op)) (w : World)
    (hops : ∀ x ∈ ops, ∀ d, x.2 ≠ Op.SetExtendedData d) :
    (run w ops).h.extendedData = w.h.extendedData := by
  induction ops generalizing w with
  | nil => rfl
  | cons x rest ih =>
    obtain ⟨now, op⟩ := x
    simp only [run]
    rw [ih (step w now op) (fun y hy => hops y (List.mem_cons_of_mem _ hy))]
    exact step_extendedData w now op (hops (now, op) (List.mem_cons_self _ _))

/-- C17: the setters are plain field writes. `SetCheckInterval(h, a)` makes
`checkHystrixInterval` equal to `h`, its first argument, and `checkAliveInterval`
equal to `a`, its second; `SetMaxFailedNumber(n)`, `SetID(s)` and
`SetExtendedData(d)` write their own field; each leaves status,
`lastChangeStatusTime`, the counter store, every other field, the counter objects
and the trace as they were. `GetID` and `GetExtendedData` return the value last
set, also after any operations and ticks that are not a `SetID`, respectively a
`SetExtendedData`. -/
theorem setters_write_own_field (w : World) (hystrixInterval aliveInterval number : Int)
    (s : String) (d : Option String) (ops : List (Time × Op)) :
    ((SetCheckInterval w hystrixInterval aliveInterval).h.checkHystrixInterval = hystrixInterval
      ∧ (SetCheckInterval w hystrixInterval aliveInterval).h.checkAliveInterval = aliveInterval
      ∧ SetCheckInterval w hystrixInterval aliveInterval
        = { w with h := { w.h with checkHystrixInterval := hystrixInterval,
                                   checkAliveInterval := aliveInterval } })
    ∧ ((SetMaxFailedNumber w number).h.maxFailedNumber = number
      ∧ SetMaxFailedNumber w number = { w with h := { w.h with maxFailedNumber := number } })
    ∧ ((SetID w s).h.id = s ∧ SetID w s = { w with h := { w.h with id := s } })
    ∧ ((SetExtendedData w d).h.extendedData = d
      ∧ SetExtendedData w d = { w with h := { w.h with extendedData := d } })
    ∧ ((SetCheckInterval w hystrixInterval aliveInterval).h.status = w.h.status
      ∧ (SetCheckInterval w hystrixInterval aliveInterval).h.lastChangeStatusTime
          = w.h.lastChangeStatusTime
      ∧ (SetCheckInterval w hystrixInterval aliveInterval).h.counters = w.h.counters
      ∧ (SetCheckInterval w hystrixInterval aliveInterval).h.maxFailedNumber
          = w.h.maxFailedNumber
      ∧ (SetMaxFailedNumber w number).h.status = w.h.status
      ∧ (SetMaxFailedNumber w number).h.lastChangeStatusTime = w.h.lastChangeStatusTime
      ∧ (SetMaxFailedNumber w number).h.counters = w.h.counters
      ∧ (SetMaxFailedNumber w number).h.checkHystrixInterval = w.h.checkHystrixInterval
      ∧ (SetMaxFailedNumber w number).h.checkAliveInterval = w.h.checkAliveInterval
      ∧ (SetID w s).h.status = w.h.status
      ∧ (SetID w s).h.lastChangeStatusTime = w.h.lastChangeStatusTime
      ∧ (SetID w s).h.counters = w.h.counters
      ∧ (SetExtendedData w d).h.status = w.h.status
      ∧ (SetExtendedData w d).h.lastChangeStatusTime = w.h.lastChangeStatusTime
      ∧ (SetExtendedData w d).h.counters = w.h.counters)
    ∧ (GetID (SetID w s) = s ∧ GetExtendedData (SetExtendedData w d) = d)
    ∧ ((∀ x ∈ ops, ∀ s2, x.2 ≠ Op.SetID s2) → GetID (run (SetID w s) ops) = s)
    ∧ ((∀ x ∈ ops, ∀ d2, x.2 ≠ Op.SetExtendedData d2) →
        GetExtendedData (run (SetExtendedData w d) ops) = d) := by
  refine ⟨⟨rfl, rfl, rfl⟩, ⟨rfl, rfl⟩, ⟨rfl, rfl⟩, ⟨rfl, rfl⟩,
    ⟨rfl, rfl, rfl, rfl, rfl, rfl, rfl, rfl, rfl, rfl, rfl, rfl, rfl, rfl, rfl⟩, ⟨rfl, rfl⟩,
    ?_, ?_⟩
  · intro hops
    unfold GetID
    rw [run_id ops _ hops]
    rfl
  · intro hops
    unfold GetExtendedData
    rw [run_extendedData ops _ hops]
    rfl

/-- Witness of C17: an id set on a fresh breaker is read back after a trigger, a
tick and a change of the extended data. -/
theorem setters_write_own_field_witness :
    (∀ x ∈ [((1 : Time), Op.TriggerHystrix), (2, Op.doCheck), (3, Op.SetExtendedData none)],
        ∀ s2, x.2 ≠ Op.SetID s2)
    ∧ GetID (run (SetID (NewHystrix none none 0) "db")
        [(1, Op.TriggerHystrix), (2, Op.doCheck), (3, Op.SetExtendedData none)]) = "db" :=
  ⟨by simp,
    (setters_write_own_field (NewHystrix none none 0) 0 0 0 "db" none
      [(1, Op.TriggerHystrix), (2, Op.doCheck), (3, Op.SetExtendedData none)]).2.2.2.2.2.2.1
      (by simp)⟩

/-! ## Counters of different buckets -/

theorem wellFormed_of_eq (v w : World) (h1 : v.h.counters = w.h.counters)
    (h2 : v.heap.next = w.heap.next) (hw : wellFormed w) : wellFormed v := by
  unfold wellFormed at *
  rw [h1, h2]
  exact hw

theorem GetCounter_isolated (w : World) (now : Time) (hw : wellFormed w) :
    wellFormed (GetCounter w now).2
    ∧ ∀ k c, w.h.counters.Load k = some c →
        (GetCounter w now).2.h.counters.Load k = some c
        ∧ (GetCounter w now).2.heap.Count c = w.heap.Count c := by
  cases hl : w.h.counters.Load (getLastedTimeKey now) with
  | some c0 =>
    rw [GetCounter_of_some w now c0 hl]
    exact ⟨hw, fun k c hk => ⟨hk, rfl⟩⟩
  | none =>
    rw [GetCounter_of_none w now hl]
    have hne : ∀ k c, w.h.counters.Load k = some c → k ≠ getLastedTimeKey now := by
      intro k c hk e
      rw [e, hl] at hk
      exact Option.noConfusion hk
    refine ⟨⟨?_, ?_⟩, ?_⟩
    · intro k c hk
      show c < w.heap.next + 1
      by_cases e : k = getLastedTimeKey now
      · rw [e, Load_Store_self] at hk
        have : w.heap.next = c := Option.some.inj hk
        omega
      · rw [Load_Store_ne _ _ _ _ e] at hk
        have := hw.1 k c hk
        omega
    · intro k k2 c hk hk2
      by_cases e : k = getLastedTimeKey now
      · by_cases e2 : k2 = getLastedTimeKey now
        · rw [e, e2]
        · rw [e, Load_Store_self] at hk
          rw [Load_Store_ne _ _ _ _ e2] at hk2
          have h1 : w.heap.next = c := Option.some.inj hk
          have h2 := hw.1 k2 c hk2
          omega
      · rw [Load_Store_ne _ _ _ _ e] at hk
        by_cases e2 : k2 = getLastedTimeKey now
        · rw [e2, Load_Store_self] at hk2
          have h1 : w.heap.next = c := Option.some.inj hk2
          have h2 := hw.1 k c hk
          omega
        · rw [Load_Store_ne _ _ _ _ e2] at hk2
          exact hw.2 k k2 c hk hk2
    · intro k c hk
      refine ⟨?_, ?_⟩
      · show (w.h.counters.Store (getLastedTimeKey now) w.heap.next).Load k = some c
        rw [Load_Store_ne _ _ _ _ (hne k c hk)]
        exact hk
      · have h1 := hw.1 k c hk
        have h2 : c ≠ w.heap.next := Nat.ne_of_lt h1
        simp [NewCounter, Heap.Count, h2]

theorem callCheck_isolated (f : CheckFunc) (w : World) (now : Time) (hw : wellFormed w) :
    wellFormed (callCheck f w now).2
    ∧ ∀ k c, w.h.counters.Load k = some c →
        (callCheck f w now).2.h.counters.Load k = some c
        ∧ (callCheck f w now).2.heap.Count c = w.heap.Count c := by
  cases f with
  | defaultCheckHystrix =>
    simp only [callCheck, defaultCheckHystrix_eq]
    exact GetCounter_isolated w now hw
  | defaultCheckAlive => exact ⟨hw, fun k c hk => ⟨hk, rfl⟩⟩
  | user name answer => exact ⟨hw, fun k c hk => ⟨hk, rfl⟩⟩

theorem Clear_current_isolated (w : World) (now : Time) (hw : wellFormed w) :
    wellFormed { (GetCounter w now).2 with
      heap := (GetCounter w now).2.heap.Clear (GetCounter w now).1 }
    ∧ ∀ k c, k ≠ getLastedTimeKey now → w.h.counters.Load k = some c →
        (GetCounter w now).2.h.counters.Load k = some c
        ∧ ((GetCounter w now).2.heap.Clear (GetCounter w now).1).Count c = w.heap.Count c := by
  have hg := GetCounter_isolated w now hw
  have hl := GetCounter_Load w now
  refine ⟨wellFormed_of_eq _ _ rfl rfl hg.1, ?_⟩
  intro k c hk hc
  have h1 := hg.2 k c hc
  refine ⟨h1.1, ?_⟩
  have hne : c ≠ (GetCounter w now).1 := by
    intro e
    rw [e] at h1
    exact hk (hg.1.2 _ _ _ h1.1 hl)
  rw [← h1.2]
  simp [Heap.Count, Heap.Clear, hne]

theorem Inc_current_isolated (w : World) (now : Time) (hw : wellFormed w) :
    wellFormed (reportFailure w now)
    ∧ ∀ k c, k ≠ getLastedTimeKey now → w.h.counters.Load k = some c →
        (reportFailure w now).h.counters.Load k = some c
        ∧ (reportFailure w now).heap.Count c = w.heap.Count c := by
  have hg := GetCounter_isolated w now hw
  have hl := GetCounter_Load w now
  have e : reportFailure w now = { (GetCounter w now).2 with
      heap := (GetCounter w now).2.heap.Inc (GetCounter w now).1 } := rfl
  rw [e]
  refine ⟨wellFormed_of_eq _ _ rfl rfl hg.1, ?_⟩
  intro k c hk hc
  have h1 := hg.2 k c hc
  refine ⟨h1.1, ?_⟩
  have hne : c ≠ (GetCounter w now).1 := by
    intro e
    rw [e] at h1
    exact hk (hg.1.2 _ _ _ h1.1 hl)
  rw [← h1.2]
  simp [Heap.Count, Heap.Inc, hne]

theorem doCheck_recovering_isolated (w : World) (now : Time) (ca ch : CheckFunc)
    (hA : w.h.checkAliveFunc = some ca) (hH : w.h.checkHystrixFunc = some ch)
    (hs : w.h.status = status_Hystrix) (hr : (callCheck ca w now).1 = true)
    (hw : wellFormed w) :
    wellFormed (doCheck w now)
    ∧ ∀ k c, k ≠ getLastedTimeKey now → w.h.counters.Load k = some c →
        (doCheck w now).h.counters.Load k = some c
        ∧ (doCheck w now).heap.Count c = w.heap.Count c := by
  rw [doCheck_Hystrix_eq w now ca ch hA hH hs, if_pos hr]
  have h1 := callCheck_isolated ca w now hw
  have hX : wellFormed (TriggerAlive ((callCheck ca w now).2.emit (Event.checkAliveFunc true)) now) :=
    wellFormed_of_eq _ (callCheck ca w now).2 (by rw [TriggerAlive_h]; rfl)
      (by rw [TriggerAlive_heap]; rfl) h1.1
  have h2 := Clear_current_isolated _ now hX
  refine ⟨wellFormed_of_eq _ _ rfl rfl h2.1, ?_⟩
  intro k c hk hc
  have h3 := h1.2 k c hc
  have h4 : (TriggerAlive ((callCheck ca w now).2.emit (Event.checkAliveFunc true))
      now).h.counters.Load k = some c := by
    rw [TriggerAlive_h]
    exact h3.1
  have h5 := h2.2 k c hk h4
  refine ⟨h5.1, ?_⟩
  show ((GetCounter (TriggerAlive _ now) now).2.heap.Clear
    (GetCounter (TriggerAlive _ now) now).1).Count c = _
  rw [h5.2, TriggerAlive_heap]
  exact h3.2

theorem doCheck_wellFormed (w : World) (now : Time) (hw : wellFormed w) :
    wellFormed (doCheck w now) := by
  cases hA : w.h.checkAliveFunc with
  | none => rw [doCheck_of_nil w now (Or.inl hA)]; exact hw
  | some ca =>
    cases hH : w.h.checkHystrixFunc with
    | none => rw [doCheck_of_nil w now (Or.inr hH)]; exact hw
    | some ch =>
      by_cases hs : w.h.status = status_Hystrix
      · by_cases hr : (callCheck ca w now).1 = true
        · exact (doCheck_recovering_isolated w now ca ch hA hH hs hr hw).1
        · rw [doCheck_Hystrix_eq w now ca ch hA hH hs, if_neg hr]
          exact wellFormed_of_eq _ (callCheck ca w now).2 rfl rfl
            (callCheck_isolated ca w now hw).1
      · rw [doCheck_Alive_eq w now ca ch hA hH hs]
        split
        · exact wellFormed_of_eq _ (callCheck ch w now).2
            (by show (TriggerHystrix _ now).h.counters = _
                rw [TriggerHystrix_h]; rfl)
            (by show (TriggerHystrix _ now).heap.next = _
                rw [TriggerHystrix_heap]; rfl)
            (callCheck_isolated ch w now hw).1
        · exact wellFormed_of_eq _ (callCheck ch w now).2 rfl rfl
            (callCheck_isolated ch w now hw).1

theorem doCleanHistoryCounter_wellFormed (w : World) (t : Time) (hw : wellFormed w) :
    wellFormed (doCleanHistoryCounter w t) := by
  have hl : ∀ k c, (doCleanHistoryCounter w t).h.counters.Load k = some c →
      w.h.counters.Load k = some c := by
    intro k c hk
    rw [doCleanHistoryCounter_counters, Load_filter w.h.counters (retained (parsedNow t)) k] at hk
    by_cases hp : retained (parsedNow t) k = true
    · rw [if_pos hp] at hk
      exact hk
    · rw [if_neg hp] at hk
      exact Option.noConfusion hk
  constructor
  · intro k c hk
    exact hw.1 k c (hl k c hk)
  · intro k k2 c hk hk2
    exact hw.2 k k2 c (hl k c hk) (hl k2 c hk2)

theorem step_wellFormed (w : World) (now : Time) (op : Op) (hw : wellFormed w) :
    wellFormed (step w now op) := by
  cases op with
  | Do => exact hw
  | RegisterAliveCheck check => exact hw
  | RegisterHystrixCheck check => exact hw
  | RegisterOnTriggerHystrix f => exact hw
  | RegisterOnTriggerAlive f => exact hw
  | GetID => exact hw
  | IsHystrix => exact hw
  | TriggerHystrix =>
    exact wellFormed_of_eq _ w (by show (TriggerHystrix w now).h.counters = _
                                   rw [TriggerHystrix_h])
      (by show (TriggerHystrix w now).heap.next = _
          rw [TriggerHystrix_heap]) hw
  | TriggerAlive =>
    exact wellFormed_of_eq _ w (by show (TriggerAlive w now).h.counters = _
                                   rw [TriggerAlive_h])
      (by show (TriggerAlive w now).heap.next = _
          rw [TriggerAlive_heap]) hw
  | GetCounter => exact (GetCounter_isolated w now hw).1
  | GetExtendedData => exact hw
  | SetID id => exact hw
  | SetCheckInterval a b => exact hw
  | SetMaxFailedNumber n => exact hw
  | SetExtendedData d => exact hw
  | counterInc c => exact hw
  | counterClear c => exact hw
  | doCheck => exact doCheck_wellFormed w now hw
  | doCleanHistoryCounter => exact doCleanHistoryCounter_wellFormed w now hw

theorem run_wellFormed (ops : List (Time × Op)) (w : World) (hw : wellFormed w) :
    wellFormed (run w ops) := by
  induction ops generalizing w with
  | nil => exact hw
  | cons x rest ih =>
    obtain ⟨now, op⟩ := x
    simp only [run]
    exact ih (step w now op) (step_wellFormed w now op hw)

theorem NewHystrix_wellFormed (checkAlive checkHysrix : Option CheckFunc) (t0 : Time) :
    wellFormed (NewHystrix checkAlive checkHysrix t0) := by
  have e : (NewHystrix checkAlive checkHysrix t0).h.counters = [] := by
    cases checkAlive <;> cases checkHysrix <;> rfl
  constructor
  · intro k c hk
    rw [e] at hk
    exact Option.noConfusion hk
  · intro k k2 c hk
    rw [e] at hk
    exact Option.noConfusion hk

/-- C16: counter isolation. In every world `w` reached from `NewHystrix` by public
operations and ticks, for every two distinct bucket keys `K` and `K2` that hold the
counters `c` and `c2`: the two counters are different objects, and incrementing or
clearing `c` leaves the store as it is and the count read under `K2` unchanged. In
particular a failure reported through `GetCounter` at time `now`, and the `Clear`
performed by a recovering tick at time `now`, leave every bucket under a key other
than the key for `now` with its counter and its count. -/
theorem counter_isolation (checkAlive checkHysrix : Option CheckFunc) (t0 now : Time)
    (ops : List (Time × Op)) (w : World)
    (hw : w = run (NewHystrix checkAlive checkHysrix t0) ops)
    (K K2 : String) (c c2 : Nat) (hK : K ≠ K2)
    (hc : w.h.counters.Load K = some c) (hc2 : w.h.counters.Load K2 = some c2) :
    c ≠ c2
    ∧ ((step w now (Op.counterInc c)).h.counters = w.h.counters
      ∧ (step w now (Op.counterInc c)).heap.Count c = w.heap.Count c + 1
      ∧ (step w now (Op.counterInc c)).heap.Count c2 = w.heap.Count c2)
    ∧ ((step w now (Op.counterClear c)).h.counters = w.h.counters
      ∧ (step w now (Op.counterClear c)).heap.Count c = 0
      ∧ (step w now (Op.counterClear c)).heap.Count c2 = w.heap.Count c2)
    ∧ (K2 ≠ getLastedTimeKey now →
        (reportFailure w now).h.counters.Load K2 = some c2
        ∧ (reportFailure w now).heap.Count c2 = w.heap.Count c2)
    ∧ (∀ ca ch, w.h.checkAliveFunc = some ca → w.h.checkHystrixFunc = some ch →
        w.h.status = status_Hystrix → (callCheck ca w now).1 = true →
        K2 ≠ getLastedTimeKey now →
        (doCheck w now).h.counters.Load K2 = some c2
        ∧ (doCheck w now).heap.Count c2 = w.heap.Count c2) := by
  have hwf : wellFormed w := by
    rw [hw]
    exact run_wellFormed ops _ (NewHystrix_wellFormed checkAlive checkHysrix t0)
  have hne : c ≠ c2 := by
    intro e
    rw [e] at hc
    exact hK (hwf.2 K K2 c2 hc hc2)
  have hne2 : c2 ≠ c := fun e => hne e.symm
  refine ⟨hne, ⟨rfl, ?_, ?_⟩, ⟨rfl, ?_, ?_⟩, ?_, ?_⟩
  · simp [step, Heap.Count, Heap.Inc]
  · simp [step, Heap.Count, Heap.Inc, hne2]
  · simp [step, Heap.Count, Heap.Clear]
  · simp [step, Heap.Count, Heap.Clear, hne2]
  · intro hk
    exact (Inc_current_isolated w now hwf).2 K2 c2 hk hc2
  · intro ca ch hA hH hs hr hk
    exact (doCheck_recovering_isolated w now ca ch hA hH hs hr hwf).2 K2 c2 hk hc2

/-- Witness of C16: the sample breaker with the buckets of 00:00 and 00:04; an
increment of the first leaves the second reading what it read. -/
theorem counter_isolation_witness :
    twoBuckets = run (NewHystrix none none 0) [(0, Op.GetCounter), (5 * Minute, Op.GetCounter)]
    ∧ "197001010000" ≠ "197001010004"
    ∧ twoBuckets.h.counters.Load "197001010000" = some 0
    ∧ twoBuckets.h.counters.Load "197001010004" = some 1
    ∧ (0 : Nat) ≠ 1
    ∧ (step twoBuckets 0 (Op.counterInc 0)).heap.Count 1 = twoBuckets.heap.Count 1 :=
  ⟨rfl, by decide, by decide, by decide,
    (counter_isolation none none 0 0 [(0, Op.GetCounter), (5 * Minute, Op.GetCounter)]
      twoBuckets rfl "197001010000" "197001010004" 0 1 (by decide) (by decide) (by decide)).1,
    (counter_isolation none none 0 0 [(0, Op.GetCounter), (5 * Minute, Op.GetCounter)]
      twoBuckets rfl "197001010000" "197001010004" 0 1 (by decide) (by decide)
      (by decide)).2.1.2.2⟩

/-! ## Cleanup and the live bucket -/

theorem currentCount_eq (w : World) (now : Time) :
    currentCount w now
      = (match w.h.counters.Load (getLastedTimeKey now) with
         | some c => w.heap.Count c
         | none => 0) := by
  cases hl : w.h.counters.Load (getLastedTimeKey now) with
  | none =>
    unfold currentCount
    rw [GetCounter_of_none w now hl]
    simp [NewCounter, Heap.Count]
  | some c =>
    unfold currentCount
    rw [GetCounter_of_some w now c hl]

theorem Parse_getLastedTimeKey (t : Time) (h0 : dateOf 0 1 1 0 0 + Minute ≤ t)
    (h1 : t < dateOf 10000 1 1 0 0) :
    Parse (getLastedTimeKey t) = some (parsedNow t)
    ∨ Parse (getLastedTimeKey t) = some (parsedNow t - Minute) := by
  have hm : (0 : Int) < Minute := by decide
  have hn := parsedNow_eq t (by simp only [Time] at *; omega) h1
  have hk := getLastedTimeKey_eq t
  have hr := minuteOf_range t
  by_cases h2 : 2 ≤ minuteOf t
  · right
    rw [hk.2 h2, Parse_Format (t - Minute) (by simp only [Time] at *; omega)
      (by simp only [Time] at *; omega), hn]
    congr 1
    simp only [Minute, Second, Time, Duration]
    omega
  · left
    rw [hk.1 (by omega), Parse_Format t (by simp only [Time] at *; omega) h1, hn]

/-- C18: cleanup never evicts the live bucket. For every store and every clock
reading `t` in the years the minute layout can render, the key that
`getLastedTimeKey` yields at `t` parses to the start of the minute of `t` or of the
minute before: it is not in the future and at most one minute old for a cleanup
pass run at `t`, which therefore retains the entry under that key with its counter
and leaves all counts intact, so that `GetCounter` at `t` finds after the pass the
counter it found or created before, reading the same count. -/
theorem doCleanHistoryCounter_keeps_live_bucket (w : World) (t : Time)
    (h0 : dateOf 0 1 1 0 0 + Minute ≤ t) (h1 : t < dateOf 10000 1 1 0 0) :
    (∃ tk, Parse (getLastedTimeKey t) = some tk
        ∧ tk ≤ t ∧ 0 ≤ parsedNow t - tk ∧ parsedNow t - tk ≤ Minute)
    ∧ retained (parsedNow t) (getLastedTimeKey t) = true
    ∧ (doCleanHistoryCounter w t).h.counters.Load (getLastedTimeKey t)
        = w.h.counters.Load (getLastedTimeKey t)
    ∧ (doCleanHistoryCounter w t).heap = w.heap
    ∧ currentCount (doCleanHistoryCounter w t) t = currentCount w t
    ∧ GetCounter (doCleanHistoryCounter (GetCounter w t).2 t) t
        = ((GetCounter w t).1, doCleanHistoryCounter (GetCounter w t).2 t) := by
  have hm : (0 : Int) < Minute := by decide
  have hn := parsedNow_eq t (by simp only [Time] at *; omega) h1
  have hp := Parse_getLastedTimeKey t h0 h1
  have hmod : 0 ≤ t % Minute := by
    simp only [Minute, Second, Time, Duration]
    omega
  have hex : ∃ tk, Parse (getLastedTimeKey t) = some tk
      ∧ tk ≤ t ∧ 0 ≤ parsedNow t - tk ∧ parsedNow t - tk ≤ Minute := by
    rcases hp with e | e
    · refine ⟨parsedNow t, e, ?_, ?_, ?_⟩
      · rw [hn]
        simp only [Time, Duration] at *
        omega
      · simp only [Time, Duration] at *
        omega
      · simp only [Time, Duration] at *
        omega
    · refine ⟨parsedNow t - Minute, e, ?_, ?_, ?_⟩
      · rw [hn]
        simp only [Time, Duration] at *
        omega
      · simp only [Time, Duration] at *
        omega
      · simp only [Time, Duration] at *
        omega
  have hret : retained (parsedNow t) (getLastedTimeKey t) = true := by
    obtain ⟨tk, e, -, -, hage⟩ := hex
    have h30 : parsedNow t - tk ≤ 30 * Minute := by
      have : Minute ≤ 30 * Minute := by decide
      exact le_trans hage this
    simp [retained, e, h30]
  have hload : ∀ v : World, (doCleanHistoryCounter v t).h.counters.Load (getLastedTimeKey t)
      = v.h.counters.Load (getLastedTimeKey t) := by
    intro v
    rw [doCleanHistoryCounter_counters,
      Load_filter v.h.counters (retained (parsedNow t)) (getLastedTimeKey t), if_pos hret]
  refine ⟨hex, hret, hload w, rfl, ?_, ?_⟩
  · rw [currentCount_eq, currentCount_eq, hload w]
    rfl
  · apply GetCounter_of_some
    rw [hload]
    exact GetCounter_Load w t

/-- Witness of C18: a pass run at 00:05:30 of 1970-01-01 keeps the bucket of 00:04. -/
theorem doCleanHistoryCounter_keeps_live_bucket_witness :
    dateOf 0 1 1 0 0 + Minute ≤ 5 * Minute + 30 * Second
    ∧ 5 * Minute + 30 * Second < dateOf 10000 1 1 0 0
    ∧ retained (parsedNow (5 * Minute + 30 * Second))
        (getLastedTimeKey (5 * Minute + 30 * Second)) = true
    ∧ currentCount (doCleanHistoryCounter twoBuckets (5 * Minute + 30 * Second))
        (5 * Minute + 30 * Second) = currentCount twoBuckets (5 * Minute + 30 * Second) :=
  ⟨by decide, by decide,
    (doCleanHistoryCounter_keeps_live_bucket twoBuckets (5 * Minute + 30 * Second)
      (by decide) (by decide)).2.1,
    (doCleanHistoryCounter_keeps_live_bucket twoBuckets (5 * Minute + 30 * Second)
      (by decide) (by decide)).2.2.2.2.1⟩

/-! ## After recovery -/

theorem currentCount_same_key (w : World) (now now2 : Time)
    (hk : getLastedTimeKey now2 = getLastedTimeKey now) :
    currentCount w now2 = currentCount w now := by
  rw [currentCount_eq, currentCount_eq, hk]

/-- C19: no immediate re-trip after recovery. For a breaker whose trip predicate is
the default one and whose `maxFailedNumber` is not negative, after a tick that
performs the Hystrix to Alive transition, a following tick at any time with the same
bucket key, with no increment in between, evaluates the trip predicate to false and
leaves the breaker Alive, whatever the counters read before the recovery; that tick
schedules its successor after `checkHystrixInterval`. -/
theorem no_retrip_after_recovery (w : World) (now now2 : Time) (ca : CheckFunc)
    (hA : w.h.checkAliveFunc = some ca)
    (hH : w.h.checkHystrixFunc = some CheckFunc.defaultCheckHystrix)
    (hs : w.h.status = status_Hystrix) (hr : (callCheck ca w now).1 = true)
    (hmax : 0 ≤ w.h.maxFailedNumber)
    (hk : getLastedTimeKey now2 = getLastedTimeKey now) :
    (doCheck w now).h.status = status_Alive
    ∧ currentCount (doCheck w now) now2 = 0
    ∧ (callCheck CheckFunc.defaultCheckHystrix (doCheck w now) now2).1 = false
    ∧ (doCheck (doCheck w now) now2).h.status = status_Alive
    ∧ IsHystrix (doCheck (doCheck w now) now2) = false
    ∧ (doCheck (doCheck w now) now2).trace = (doCheck w now).trace ++
        [Event.checkHystrixFunc false,
          Event.afterFunc (secondsDuration w.h.checkHystrixInterval) Task.doCheck] := by
  have hR := doCheck_recovers w now ca CheckFunc.defaultCheckHystrix hA hH hs hr
  obtain ⟨s, t, m, hf⟩ := doCheck_frame w now
  have hA2 : (doCheck w now).h.checkAliveFunc = some ca := by rw [hf]; exact hA
  have hH2 : (doCheck w now).h.checkHystrixFunc = some CheckFunc.defaultCheckHystrix := by
    rw [hf]; exact hH
  have hm2 : (doCheck w now).h.maxFailedNumber = w.h.maxFailedNumber := by rw [hf]
  have hi2 : (doCheck w now).h.checkHystrixInterval = w.h.checkHystrixInterval := by rw [hf]
  have hc : currentCount (doCheck w now) now2 = 0 := by
    rw [currentCount_same_key _ now now2 hk]
    exact hR.2.2.1
  have hfalse : (callCheck CheckFunc.defaultCheckHystrix (doCheck w now) now2).1 = false := by
    simp only [callCheck, defaultCheckHystrix_eq, hc, hm2]
    have : ¬ ((0 : Int) > w.h.maxFailedNumber) := not_lt.mpr hmax
    simp [this]
  have hs2 : (doCheck w now).h.status ≠ status_Hystrix := by
    rw [hR.1]
    decide
  have hnt : ¬ (callCheck CheckFunc.defaultCheckHystrix (doCheck w now) now2).1 = true := by
    rw [hfalse]
    exact Bool.false_ne_true
  have hE := doCheck_Alive_eq (doCheck w now) now2 ca CheckFunc.defaultCheckHystrix hA2 hH2 hs2
  rw [if_neg hnt] at hE
  have hst : (doCheck (doCheck w now) now2).h.status = status_Alive := by
    rw [hE]
    show (callCheck CheckFunc.defaultCheckHystrix (doCheck w now) now2).2.h.status = _
    rw [callCheck_h]
    exact hR.1
  refine ⟨hR.1, hc, hfalse, hst, ?_, ?_⟩
  · unfold IsHystrix
    rw [hst]
    decide
  · rw [hE, hi2]
    show ((callCheck CheckFunc.defaultCheckHystrix (doCheck w now) now2).2.trace ++ _) ++ _ = _
    rw [callCheck_trace]
    simp

/-- Witness of C19: the tripped sample breaker with seven failures counted at
00:05:01, recovering at that time and ticked again ten seconds later. -/
theorem no_retrip_after_recovery_witness :
    (reportFailures trippedBreaker (301 * Second) 7).h.status = status_Hystrix
    ∧ currentCount (reportFailures trippedBreaker (301 * Second) 7) (301 * Second) = 7
    ∧ 0 ≤ (reportFailures trippedBreaker (301 * Second) 7).h.maxFailedNumber
    ∧ getLastedTimeKey (311 * Second) = getLastedTimeKey (301 * Second)
    ∧ IsHystrix (doCheck (doCheck (reportFailures trippedBreaker (301 * Second) 7)
        (301 * Second)) (311 * Second)) = false :=
  ⟨rfl, by decide, by decide, by decide,
    (no_retrip_after_recovery (reportFailures trippedBreaker (301 * Second) 7) (301 * Second)
      (311 * Second) CheckFunc.defaultCheckAlive rfl rfl rfl (by decide) (by decide)
      (by decide)).2.2.2.2.1⟩

/-! ## The minimum duration of a trip -/

theorem doCheck_within_window (w : World) (now : Time)
    (hA : w.h.checkAliveFunc = some CheckFunc.defaultCheckAlive)
    (hs : w.h.status = status_Hystrix)
    (hn : now - w.h.lastChangeStatusTime ≤ 300 * Second) :
    (doCheck w now).h = w.h := by
  cases hH : w.h.checkHystrixFunc with
  | none => rw [doCheck_of_nil w now (Or.inr hH)]
  | some ch =>
    have hf : ¬ (callCheck CheckFunc.defaultCheckAlive w now).1 = true := by
      intro h
      have h2 : defaultCheckAlive w now = true := h
      rw [defaultCheckAlive_iff] at h2
      exact absurd hn (not_le.mpr h2)
    rw [doCheck_Hystrix_eq w now CheckFunc.defaultCheckAlive ch hA hH hs, if_neg hf]
    rfl

theorem step_stays_tripped (w : World) (t now : Time) (op : Op)
    (hA : w.h.checkAliveFunc = some CheckFunc.defaultCheckAlive)
    (hs : w.h.status = status_Hystrix) (hl : t ≤ w.h.lastChangeStatusTime)
    (hop : keepsTripped op) (ht : t ≤ now) (htick : op = Op.doCheck → now - t ≤ 300 * Second) :
    (step w now op).h.checkAliveFunc = some CheckFunc.defaultCheckAlive
    ∧ (step w now op).h.status = status_Hystrix
    ∧ t ≤ (step w now op).h.lastChangeStatusTime := by
  cases op with
  | Do => exact ⟨hA, hs, hl⟩
  | RegisterAliveCheck check => exact False.elim hop
  | RegisterHystrixCheck check => exact ⟨hA, hs, hl⟩
  | RegisterOnTriggerHystrix f => exact ⟨hA, hs, hl⟩
  | RegisterOnTriggerAlive f => exact ⟨hA, hs, hl⟩
  | GetID => exact ⟨hA, hs, hl⟩
  | IsHystrix => exact ⟨hA, hs, hl⟩
  | TriggerHystrix =>
    have e : (step w now Op.TriggerHystrix).h
        = { w.h with status := status_Hystrix, lastChangeStatusTime := now } :=
      TriggerHystrix_h w now
    rw [e]
    exact ⟨hA, rfl, ht⟩
  | TriggerAlive => exact False.elim hop
  | GetCounter =>
    have e : (step w now Op.GetCounter).h
        = { w.h with counters := (GetCounter w now).2.h.counters } := GetCounter_h w now
    rw [e]
    exact ⟨hA, hs, hl⟩
  | GetExtendedData => exact ⟨hA, hs, hl⟩
  | SetID id => exact ⟨hA, hs, hl⟩
  | SetCheckInterval a b => exact ⟨hA, hs, hl⟩
  | SetMaxFailedNumber n => exact ⟨hA, hs, hl⟩
  | SetExtendedData d => exact ⟨hA, hs, hl⟩
  | counterInc c => exact ⟨hA, hs, hl⟩
  | counterClear c => exact ⟨hA, hs, hl⟩
  | doCheck =>
    have hw : now - w.h.lastChangeStatusTime ≤ 300 * Second := by
      have h1 := htick rfl
      simp only [Time, Duration] at *
      omega
    have e : (step w now Op.doCheck).h = w.h := doCheck_within_window w now hA hs hw
    rw [e]
    exact ⟨hA, hs, hl⟩
  | doCleanHistoryCounter => exact ⟨hA, hs, hl⟩

theorem run_stays_tripped (ops : List (Time × Op)) (w : World) (t : Time)
    (hA : w.h.checkAliveFunc = some CheckFunc.defaultCheckAlive)
    (hs : w.h.status = status_Hystrix) (hl : t ≤ w.h.lastChangeStatusTime)
    (hops : ∀ x ∈ ops, keepsTripped x.2 ∧ t ≤ x.1
      ∧ (x.2 = Op.doCheck → x.1 - t ≤ 300 * Second)) :
    (run w ops).h.checkAliveFunc = some CheckFunc.defaultCheckAlive
    ∧ (run w ops).h.status = status_Hystrix
    ∧ t ≤ (run w ops).h.lastChangeStatusTime := by
  induction ops generalizing w with
  | nil => exact ⟨hA, hs, hl⟩
  | cons x rest ih =>
    obtain ⟨now, op⟩ := x
    simp only [run]
    have hx := hops (now, op) (List.mem_cons_self _ _)
    have h1 := step_stays_tripped w t now op hA hs hl hx.1 hx.2.1 hx.2.2
    exact ih (step w now op) h1.1 h1.2.1 h1.2.2
      (fun y hy => hops y (List.mem_cons_of_mem _ hy))

/-- C20: minimum trip duration under the default recovery predicate. If
`TriggerHystrix` ran at time `t`, directly or through a tripping tick, then after
any later operations and ticks among which there is no direct `TriggerAlive`, no
replacement of the recovery predicate and no tick later than 300 seconds after `t`,
the breaker is in Hystrix status: every tick at a time `t2` with `t2 - t` at most
300 seconds leaves it tripped. A further `TriggerHystrix` at time `t2` restarts the
window: the same holds with ticks up to 300 seconds after `t2`. The window does
end: a tick more than 300 seconds after `t`, with no trigger in between, recovers. -/
theorem stays_tripped_300_seconds (w : World) (t t2 : Time) (ops ops2 : List (Time × Op))
    (hA : w.h.checkAliveFunc = some CheckFunc.defaultCheckAlive)
    (hops : ∀ x ∈ ops, keepsTripped x.2 ∧ t ≤ x.1
      ∧ (x.2 = Op.doCheck → x.1 - t ≤ 300 * Second))
    (hops2 : ∀ x ∈ ops2, keepsTripped x.2 ∧ t2 ≤ x.1
      ∧ (x.2 = Op.doCheck → x.1 - t2 ≤ 300 * Second)) :
    IsHystrix (run (TriggerHystrix w t) ops) = true
    ∧ (∀ ch, w.h.checkHystrixFunc = some ch → w.h.status ≠ status_Hystrix →
        (callCheck ch w t).1 = true → IsHystrix (run (doCheck w t) ops) = true)
    ∧ IsHystrix (run (TriggerHystrix (run (TriggerHystrix w t) ops) t2) ops2) = true
    ∧ (∀ now ch, w.h.checkHystrixFunc = some ch → now - t > 300 * Second →
        IsHystrix (doCheck (TriggerHystrix w t) now) = false) := by
  have hT : ∀ (v : World) (u : Time),
      v.h.checkAliveFunc = some CheckFunc.defaultCheckAlive →
      (TriggerHystrix v u).h.checkAliveFunc = some CheckFunc.defaultCheckAlive
      ∧ (TriggerHystrix v u).h.status = status_Hystrix
      ∧ u ≤ (TriggerHystrix v u).h.lastChangeStatusTime := by
    intro v u hv
    rw [TriggerHystrix_h]
    exact ⟨hv, rfl, le_refl _⟩
  have hIs : ∀ v : World, v.h.status = status_Hystrix → IsHystrix v = true := by
    intro v hv
    unfold IsHystrix
    rw [hv]
    decide
  have h1 := hT w t hA
  have r1 := run_stays_tripped ops (TriggerHystrix w t) t h1.1 h1.2.1 h1.2.2 hops
  refine ⟨hIs _ r1.2.1, ?_, ?_, ?_⟩
  · intro ch hH hs hr
    have hE := doCheck_Alive_eq w t CheckFunc.defaultCheckAlive ch hA hH hs
    rw [if_pos hr] at hE
    have hh : (doCheck w t).h = { (callCheck ch w t).2.h with
        status := status_Hystrix, lastChangeStatusTime := t } := by
      rw [hE]
      show (TriggerHystrix _ t).h = _
      rw [TriggerHystrix_h]
      rfl
    have hA2 : (doCheck w t).h.checkAliveFunc = some CheckFunc.defaultCheckAlive := by
      rw [hh]
      show (callCheck ch w t).2.h.checkAliveFunc = _
      rw [callCheck_h]
      exact hA
    have hs2 : (doCheck w t).h.status = status_Hystrix := by rw [hh]
    have hl2 : t ≤ (doCheck w t).h.lastChangeStatusTime := by
      rw [hh]
    exact hIs _ (run_stays_tripped ops (doCheck w t) t hA2 hs2 hl2 hops).2.1
  · have h2 := hT (run (TriggerHystrix w t) ops) t2 r1.1
    exact hIs _ (run_stays_tripped ops2 _ t2 h2.1 h2.2.1 h2.2.2 hops2).2.1
  · intro now ch hH hn
    have hA3 : (TriggerHystrix w t).h.checkAliveFunc = some CheckFunc.defaultCheckAlive := h1.1
    have hH3 : (TriggerHystrix w t).h.checkHystrixFunc = some ch := by
      rw [TriggerHystrix_h]
      exact hH
    have hlast : (TriggerHystrix w t).h.lastChangeStatusTime = t := by
      rw [TriggerHystrix_h]
    have hr : (callCheck CheckFunc.defaultCheckAlive (TriggerHystrix w t) now).1 = true := by
      show defaultCheckAlive (TriggerHystrix w t) now = true
      rw [defaultCheckAlive_iff, hlast]
      exact hn
    have hR := doCheck_recovers (TriggerHystrix w t) now CheckFunc.defaultCheckAlive ch
      hA3 hH3 h1.2.1 hr
    unfold IsHystrix
    rw [hR.1]
    decide

/-- Witness of C20: a fresh breaker tripped at time 0 and ticked after 10 and after
300 seconds, then tripped again at 400 seconds and ticked at 650 seconds. -/
theorem stays_tripped_300_seconds_witness :
    (NewHystrix none none 0).h.checkAliveFunc = some CheckFunc.defaultCheckAlive
    ∧ IsHystrix (run (TriggerHystrix (NewHystrix none none 0) 0)
        [(10 * Second, Op.doCheck), (300 * Second, Op.doCheck)]) = true
    ∧ IsHystrix (run (TriggerHystrix (run (TriggerHystrix (NewHystrix none none 0) 0)
        [(10 * Second, Op.doCheck), (300 * Second, Op.doCheck)]) (400 * Second))
        [(650 * Second, Op.doCheck)]) = true :=
  ⟨rfl,
    (stays_tripped_300_seconds (NewHystrix none none 0) 0 (400 * Second)
      [(10 * Second, Op.doCheck), (300 * Second, Op.doCheck)] [(650 * Second, Op.doCheck)] rfl
      (by
        intro x hx
        simp only [List.mem_cons, List.mem_singleton, List.not_mem_nil, or_false] at hx
        rcases hx with rfl | rfl
        · exact ⟨trivial, by decide, fun _ => by decide⟩
        · exact ⟨trivial, by decide, fun _ => by decide⟩)
      (by
        intro x hx
        simp only [List.mem_cons, List.mem_singleton, List.not_mem_nil, or_false] at hx
        rcases hx with rfl
        exact ⟨trivial, by decide, fun _ => by decide⟩)).1,
    (stays_tripped_300_seconds (NewHystrix none none 0) 0 (400 * Second)
      [(10 * Second, Op.doCheck), (300 * Second, Op.doCheck)] [(650 * Second, Op.doCheck)] rfl
      (by
        intro x hx
        simp only [List.mem_cons, List.mem_singleton, List.not_mem_nil, or_false] at hx
        rcases hx with rfl | rfl
        · exact ⟨trivial, by decide, fun _ => by decide⟩
        · exact ⟨trivial, by decide, fun _ => by decide⟩)
      (by
        intro x hx
        simp only [List.mem_cons, List.mem_singleton, List.not_mem_nil, or_false] at hx
        rcases hx with rfl
        exact ⟨trivial, by decide, fun _ => by decide⟩)).2.2.1⟩

end Hystrix
